import Mathlib

/-
Verification of the panic-panda scene compiler and frame recorder
(src/engine/data_components/data_shader.py, data_scene.py) against its
specification.  The Python source is shallowly embedded: pure computations
become Lean functions, Python exceptions become `Except Err`, and native
Vulkan handles become serial numbers / the inductive `Handle` type.
-/

namespace PanicPanda

/-- Python exceptions surfaced by the embedded code.  `invalidUniformType`
is the `ValueError` raised by `uniform_member_as_ctype` (the spec's
`InvalidUniformType`); `unsupportedDescriptorType` is the `ValueError`
raised by `generate_write_set` (the spec's `UnsupportedDescriptorType`);
`typeError` / `indexError` are Python `TypeError` / `IndexError`. -/
inductive Err where
  | invalidUniformType
  | unsupportedDescriptorType
  | typeError
  | indexError
deriving DecidableEq, Repr

/-- The Vulkan constant `vk.DESCRIPTOR_TYPE_UNIFORM_BUFFER`. -/
def DESCRIPTOR_TYPE_UNIFORM_BUFFER : Nat := 6

/-- A ctypes array type `c_float * length` (what `uniform_member_as_ctype`
returns: `t*(count1*count2)` with `t = c_float`). -/
structure CFloatArray where
  length : Nat
deriving DecidableEq, Repr

/-- `uniform_member_as_ctype(value, count1)` from data_shader.py.
`value` is first converted to the `UniformMemberType` enum (members
FLOAT_MAT2 = 0, FLOAT_MAT3 = 1, FLOAT_MAT4 = 2); an out-of-range raw value
raises `ValueError` there (the trailing `else: raise` branch of the source
is unreachable because the enum conversion already raised).  The matrix
types map to `count2` = 4 / 9 / 16 floats and the result is the ctypes
array `c_float * (count1 * count2)`.  The `lru_cache` wrapper has no
functional effect on a pure function and is not modelled. -/
def uniform_member_as_ctype (value count1 : Nat) : Except Err CFloatArray :=
  if value = 0 then Except.ok ⟨count1 * 4⟩
  else if value = 1 then Except.ok ⟨count1 * 9⟩
  else if value = 2 then Except.ok ⟨count1 * 16⟩
  else Except.error Err.invalidUniformType

/-- `ctypes.sizeof` of a `Structure` with `_pack_ = 16` whose fields are
all `c_float` arrays.  `_pack_` caps each field's alignment at 16 bytes; a
`c_float` array has natural alignment 4, so every field keeps alignment 4,
fields are laid out back to back (each size `4 * length` is a multiple of
4), and the struct size is the plain sum `4 * Σ lengths` (already a
multiple of the struct alignment 4).  In particular `_pack_ = 16` does NOT
round the size up to a multiple of 16. -/
def ctypesFloatStructSizeof (fields : List CFloatArray) : Nat :=
  4 * (fields.map (fun f => f.length)).sum

/-- One entry of a uniform's `fields` list in the shader reflection
mapping: `{name, type, count}`. -/
structure UniformField where
  name : String
  type : Nat
  count : Nat
deriving DecidableEq, Repr

/-- One entry of the reflection mapping's `uniforms` list:
`{name, set, binding, type, count, stage, fields}` where `type` is a raw
Vulkan descriptor type. -/
structure UniformDecl where
  name : String
  set : Nat
  binding : Nat
  type : Nat
  count : Nat
  stage : Nat
  fields : List UniformField
deriving DecidableEq, Repr

/-- `hvk.descriptor_set_layout_binding(...)` record built per uniform. -/
structure LayoutBinding where
  binding : Nat
  descriptor_type : Nat
  descriptor_count : Nat
  stage_flags : Nat
deriving DecidableEq, Repr

/-- One write-set template dict `{descriptor_type, range, binding}`. -/
structure WriteSetTemplate where
  descriptor_type : Nat
  range : Nat
  binding : Nat
deriving DecidableEq, Repr

/-- The `DescriptorSetLayout` wrapper object of data_shader.py.
`set_layout` is the native handle, modelled as the serial index of the
layout within its shader (creation order).  `struct_map` is the Python
dict mapping a uniform name to its ctypes struct, modelled as an
insertion-ordered association list keeping only the struct's size (the
only attribute read afterwards). -/
structure DescriptorSetLayout where
  set_layout : Nat
  struct_map : List (String × Nat)
  pool_size_counts : List (Nat × Nat)
  bindings : List LayoutBinding
  write_set_templates : List WriteSetTemplate
deriving DecidableEq, Repr

/-- `struct_map_size_bytes = sum(sizeof(s) for s in struct_map.values())`
computed in `DescriptorSetLayout.__init__`. -/
def DescriptorSetLayout.struct_map_size_bytes (l : DescriptorSetLayout) : Nat :=
  (l.struct_map.map (fun p => p.2)).sum

/-- Python dict update `d[k] = d.get(k, 0) + v` on an insertion-ordered
association list with Nat keys (the `counts` dict of
`_setup_descriptor_layouts`): an existing key is updated in place, a new
key is appended. -/
def countsAdd (l : List (Nat × Nat)) (k v : Nat) : List (Nat × Nat) :=
  if l.any (fun p => p.1 = k) then
    l.map (fun p => if p.1 = k then (p.1, p.2 + v) else p)
  else l ++ [(k, v)]

/-- Python dict assignment `d[k] = v` on an insertion-ordered association
list with String keys (the `structs` dict): overwrite in place or
append. -/
def structsSet (l : List (String × Nat)) (k : String) (v : Nat) :
    List (String × Nat) :=
  if l.any (fun p => p.1 = k) then
    l.map (fun p => if p.1 = k then (p.1, v) else p)
  else l ++ [(k, v)]

/-- Python dict-of-lists append used by `_group_uniforms_by_sets`:
append `u` to the list at key `k`, creating the key at the end if new. -/
def dictAppend (l : List (Nat × List UniformDecl)) (k : Nat)
    (u : UniformDecl) : List (Nat × List UniformDecl) :=
  if l.any (fun p => p.1 = k) then
    l.map (fun p => if p.1 = k then (p.1, p.2 ++ [u]) else p)
  else l ++ [(k, [u])]

/-- `DataShader._group_uniforms_by_sets`: partition the mapping's uniforms
by their `set` key, keys in first-encounter (dict insertion) order, the
uniforms of a set kept in declaration order. -/
def group_uniforms_by_sets (uniforms : List UniformDecl) :
    List (Nat × List UniformDecl) :=
  uniforms.foldl (fun acc u => dictAppend acc u.set u) []

/-- The per-set accumulators `counts, structs, bindings, wst` of the inner
loop of `_setup_descriptor_layouts`. -/
structure SetAccum where
  counts : List (Nat × Nat)
  structs : List (String × Nat)
  bindings : List LayoutBinding
  wst : List WriteSetTemplate
deriving DecidableEq, Repr

/-- The `for field in uniform["fields"]` loop assembling the ctypes
struct's `_fields_` list: each field's type is translated by
`uniform_member_as_ctype`, failing fast on the first invalid member. -/
def mapCtypes : List UniformField → Except Err (List CFloatArray)
  | [] => Except.ok []
  | f :: rest => do
    let c ← uniform_member_as_ctype f.type f.count
    let cs ← mapCtypes rest
    pure (c :: cs)

/-- One iteration of the `for uniform in uniforms` loop of
`_setup_descriptor_layouts`: add the descriptor count, build the ctypes
struct from the uniform's fields (this is the fallible step: an invalid
member type aborts compilation), record the raw layout binding and the
write-set template whose `range` is the struct's size. -/
def setupSetUniform (acc : SetAccum) (u : UniformDecl) :
    Except Err SetAccum := do
  let ctys ← mapCtypes u.fields
  let sz := ctypesFloatStructSizeof ctys
  pure {
    counts := countsAdd acc.counts u.type u.count
    structs := structsSet acc.structs u.name sz
    bindings := acc.bindings ++ [⟨u.binding, u.type, u.count, u.stage⟩]
    wst := acc.wst ++ [⟨u.type, sz, u.binding⟩] }

/-- The full `for uniform in uniforms` loop over one descriptor set. -/
def buildSetAccum : SetAccum → List UniformDecl → Except Err SetAccum
  | acc, [] => Except.ok acc
  | acc, u :: rest => do
    let a ← setupSetUniform acc u
    buildSetAccum a rest

/-- The outer `for dset, uniforms in self._group_uniforms_by_sets()` loop:
each set yields one `DescriptorSetLayout` whose native handle
(`create_descriptor_set_layout`) is modelled by the running serial `i`. -/
def buildLayouts : Nat → List (Nat × List UniformDecl) →
    Except Err (List DescriptorSetLayout)
  | _, [] => Except.ok []
  | i, (_, us) :: rest => do
    let acc ← buildSetAccum ⟨[], [], [], []⟩ us
    let restL ← buildLayouts (i + 1) rest
    pure (⟨i, acc.structs, acc.counts, acc.bindings, acc.wst⟩ :: restL)

/-- `DataShader._setup_descriptor_layouts`: returns early (leaving
`descriptor_set_layouts = None`) when the mapping declares no uniforms,
otherwise builds one `DescriptorSetLayout` per distinct set index. -/
def setup_descriptor_layouts (uniforms : List UniformDecl) :
    Except Err (Option (List DescriptorSetLayout)) :=
  if uniforms.length = 0 then Except.ok none
  else do
    let ls ← buildLayouts 0 (group_uniforms_by_sets uniforms)
    pure (some ls)

/-- A native handle owned by a compiled shader, tagged by the shader's
serial id so handles of different shaders are distinct.  Within one shader
the acquisition order is: the two stage modules (vertex then fragment, in
`_compile_shader`), then the descriptor set layouts (in
`_setup_descriptor_layouts`), then the pipeline layout
(in `_setup_pipeline_layout`). -/
inductive Handle where
  | module (shader : Nat) (i : Nat)
  | setLayout (shader : Nat) (i : Nat)
  | pipelineLayout (shader : Nat)
deriving DecidableEq, Repr

/-- The compiled `DataShader`.  `id` is the shader's position in the
scene's shader list (making its native handles globally unique);
`modules` are the serials of the two stage modules;
`pipeline_layout_set_layouts` is the `set_layouts` list passed to
`create_pipeline_layout` (`self.descriptor_set_layouts or ()`).  The
vertex input state and ordered attribute names of `_setup_vertex_state`
are not referenced by any claim and are omitted. -/
structure DataShader where
  id : Nat
  modules : List Nat
  descriptor_set_layouts : Option (List DescriptorSetLayout)
  pipeline_layout_set_layouts : List Nat
deriving DecidableEq, Repr

/-- `DataShader.__init__`: compile the two stage modules (serials 0, 1),
set up the descriptor set layouts, then the pipeline layout over
`self.descriptor_set_layouts or ()`. -/
def DataShader.compile (id : Nat) (uniforms : List UniformDecl) :
    Except Err DataShader := do
  let layouts ← setup_descriptor_layouts uniforms
  pure ⟨id, [0, 1], layouts,
        ((layouts.getD []).map (fun l => l.set_layout))⟩

/-- The order in which a compiled shader acquired its native handles:
stage modules first, then set layouts, then the pipeline layout last. -/
def DataShader.acquisitionOrder (s : DataShader) : List Handle :=
  (s.modules.map (Handle.module s.id)) ++
  ((s.descriptor_set_layouts.getD []).map
    (fun l => Handle.setLayout s.id l.set_layout)) ++
  [Handle.pipelineLayout s.id]

/-- `DataShader.free`: iterates `self.descriptor_set_layouts`
unconditionally — when it is `None` (shader without uniforms) Python
raises `TypeError` before destroying anything.  Otherwise it destroys the
descriptor set layouts (in stored order), then the pipeline layout, then
the stage modules (in stored order); the returned list is the destruction
sequence. -/
def DataShader.free (s : DataShader) : Except Err (List Handle) :=
  match s.descriptor_set_layouts with
  | none => Except.error Err.typeError
  | some ls => Except.ok
      ((ls.map (fun l => Handle.setLayout s.id l.set_layout)) ++
       [Handle.pipelineLayout s.id] ++
       (s.modules.map (Handle.module s.id)))

/-- Modelled from the spec: the scene-level mesh descriptor lives in a
module that only data_scene.py consumes ("MeshDescriptor: source
vertex/index bytes ... Invariant: each distinct mesh (identity-compared)
is packed exactly once").  `ident` models the Python object identity
`id(mesh)` and `size` the byte count returned by `mesh.size()`. -/
structure Mesh where
  ident : Nat
  size : Nat
deriving DecidableEq, Repr

/-- Modelled from the spec: a raw scene object
("GameObjectDescriptor: references to a shader index, mesh index, ...").
`mesh` indexes into the scene's mesh list; `none` models a Python `None`
attribute. -/
structure SceneObject where
  shader : Option Nat
  mesh : Option Nat
deriving DecidableEq, Repr

/-- The `DataMesh(mesh, staging_mesh_offset)` wrapper: a packed mesh and
its assigned base offset into the shared staging/device buffer. -/
structure DataMesh where
  mesh : Mesh
  base_offset : Nat
deriving DecidableEq, Repr

/-- The compiled `DataGameObject`.  `pipeline`, `descriptor_sets` start
unset (`None`) and are backfilled during compilation (spec:
"pipeline/descriptor fields are backfilled during compilation");
`descriptor_sets` holds native descriptor-set handle serials. -/
structure DataGameObject where
  shader : Option Nat
  mesh : Option Nat
  pipeline : Option Nat
  descriptor_sets : Option (List Nat)
deriving DecidableEq, Repr

/-- Modelled from the spec: `DataGameObject(obj)` (data_game_object.py is
not under src/) copies the scene object's shader and mesh references and
leaves the backfilled fields unset. -/
def DataGameObject.ofScene (o : SceneObject) : DataGameObject :=
  ⟨o.shader, o.mesh, none, none⟩

/-- The `for obj in scene.objects` loop of `DataScene._setup_objects`:
`mesh = meshes[obj.mesh]` (a `None` index raises `TypeError`, an
out-of-range index raises `IndexError`); a not-yet-seen mesh (by identity)
is appended to the packed list at the current staging offset, which then
advances by `mesh.size()`; every object yields a `DataGameObject`.
Returns the final staging offset (the staging/device buffer size), the
packed mesh list and the object list. -/
def setup_objects_loop (meshes : List (Option Mesh)) :
    List SceneObject → Nat → List Nat → List DataMesh →
    List DataGameObject →
    Except Err (Nat × List DataMesh × List DataGameObject)
  | [], off, _, dms, objs => Except.ok (off, dms, objs)
  | o :: rest, off, cache, dms, objs =>
    match o.mesh with
    | none => Except.error Err.typeError
    | some mi =>
      match meshes.get? mi with
      | none => Except.error Err.indexError
      | some none =>
        setup_objects_loop meshes rest off cache dms
          (objs ++ [DataGameObject.ofScene o])
      | some (some m) =>
        if m.ident ∈ cache then
          setup_objects_loop meshes rest off cache dms
            (objs ++ [DataGameObject.ofScene o])
        else
          setup_objects_loop meshes rest (off + m.size)
            (cache ++ [m.ident]) (dms ++ [⟨m, off⟩])
            (objs ++ [DataGameObject.ofScene o])

/-- `DataScene._setup_objects` up to the staging upload: the staging
buffer is created with `size = staging_mesh_offset` and the device buffer
with `size = staging_alloc.size`; the external allocator is modelled from
the spec (`allocate(...) -> Allocation{offset,size}`) as returning an
allocation of exactly the requested size, so both buffers have the final
staging offset as size. -/
def setup_objects (meshes : List (Option Mesh)) (objs : List SceneObject) :
    Except Err (Nat × List DataMesh × List DataGameObject) :=
  setup_objects_loop meshes objs 0 [] [] []

/-- The loop of `DataScene._group_objects_by_shaders`: objects are keyed
by `obj.shader`; a known key appends the object to its group
(`groups[i][1].append(obj)`), an unknown key appends a fresh group at the
end.  Objects are tracked together with their index in `self.objects`
(their Python identity) so that later in-place mutations can be modelled
as list updates. -/
def group_loop : List (Nat × DataGameObject) →
    List (Option Nat × List (Nat × DataGameObject)) →
    List (Option Nat × List (Nat × DataGameObject))
  | [], groups => groups
  | (i, o) :: rest, groups =>
    if o.shader ∈ groups.map (fun g => g.1) then
      group_loop rest
        (groups.map (fun g =>
          if g.1 = o.shader then (g.1, g.2 ++ [(i, o)]) else g))
    else
      group_loop rest (groups ++ [(o.shader, [(i, o)])])

/-- `DataScene._group_objects_by_shaders` without the memoization guard:
partition the enumerated object list by shader key in first-encounter
order. -/
def group_objects_by_shaders (objs : List DataGameObject) :
    List (Option Nat × List (Nat × DataGameObject)) :=
  group_loop objs.enum []

/-- The memoization state: `shader_objects_sorted` / `shader_objects` of
`DataScene.__init__` (initially `False` / `None`, modelled as `[]`). -/
structure GroupCache where
  shader_objects_sorted : Bool
  shader_objects : List (Option Nat × List (Nat × DataGameObject))
deriving DecidableEq, Repr

/-- `DataScene._group_objects_by_shaders` with its memoization: a second
call returns the stored groups without recomputing. -/
def group_objects_cached (objs : List DataGameObject) (c : GroupCache) :
    List (Option Nat × List (Nat × DataGameObject)) × GroupCache :=
  if c.shader_objects_sorted then (c.shader_objects, c)
  else
    let g := group_objects_by_shaders objs
    (g, ⟨true, g⟩)

/-- The identifying content of one `graphics_pipeline_create_info` built
in `_setup_pipelines`: the shader's stage modules and pipeline layout
(the shared fixed-function state is identical across all infos and
carries no information). -/
structure PipelineInfo where
  stages : List Handle
  layout : Handle
deriving DecidableEq, Repr

/-- The pipeline create info derived from one shader (`stages =
shader.stage_infos`, `layout = shader.pipeline_layout`). -/
def mkPipelineInfo (s : DataShader) : PipelineInfo :=
  ⟨s.modules.map (Handle.module s.id), Handle.pipelineLayout s.id⟩

/-- In-place mutation `objects[i].pipeline = p` on the scene's object
list. -/
def setPipelineAt (objs : List DataGameObject) (i : Nat) (p : Option Nat) :
    List DataGameObject :=
  match objs.get? i with
  | none => objs
  | some o => objs.set i ⟨o.shader, o.mesh, p, o.descriptor_sets⟩

/-- The `for shader_index, objects in self._group_objects_by_shaders()`
loop of `_setup_pipelines`: `shader = shaders[shader_index]` (a `None`
key raises `TypeError`, an out-of-range one `IndexError`); every object
of the group gets `obj.pipeline = shader_index` — note: the SHADER index,
not the position of the group's pipeline info in the batched list — and
one pipeline info is appended per group. -/
def setup_pipelines_loop (shaders : List DataShader) :
    List (Option Nat × List (Nat × DataGameObject)) →
    List DataGameObject → List PipelineInfo →
    Except Err (List PipelineInfo × List DataGameObject)
  | [], objs, infos => Except.ok (infos, objs)
  | (si, members) :: rest, objs, infos =>
    match si with
    | none => Except.error Err.typeError
    | some s =>
      match shaders.get? s with
      | none => Except.error Err.indexError
      | some shader =>
        let objs := members.foldl
          (fun acc m => setPipelineAt acc m.1 (some s)) objs
        setup_pipelines_loop shaders rest objs
          (infos ++ [mkPipelineInfo shader])

/-- `DataScene._setup_pipelines`: group the objects, backfill
`obj.pipeline`, and hand all pipeline infos to one batched
`create_graphics_pipelines` call whose result list (`self.pipelines`) has
one pipeline per info, in info order. -/
def setup_pipelines (shaders : List DataShader)
    (objs : List DataGameObject) (c : GroupCache) :
    Except Err (List PipelineInfo × List DataGameObject × GroupCache) := do
  let (groups, c) := group_objects_cached objs c
  let (infos, objs) ← setup_pipelines_loop shaders groups objs []
  pure (infos, objs, c)

/-- Python `range(0, stop, step)` for `step > 0` (the multiples of `step`
below `stop`).  `step = 0` raises `ValueError` in Python; it is
unreachable here because every shader group holds at least one object. -/
def pyRangeStep (stop step : Nat) : List Nat :=
  if step = 0 then []
  else (List.range ((stop + step - 1) / step)).map (fun i => i * step)

/-- In-place mutation `objects[i].descriptor_sets = ds`. -/
def setDescriptorSetsAt (objs : List DataGameObject) (i : Nat)
    (ds : Option (List Nat)) : List DataGameObject :=
  match objs.get? i with
  | none => objs
  | some o => objs.set i ⟨o.shader, o.mesh, o.pipeline, ds⟩

/-- The per-group body of `DataScene._setup_descriptor_sets`:
the uniform buffer size grows by
`sum(l.struct_map_size_bytes for l in shader.descriptor_set_layouts) *
len(objects)` (iterating a `None` layout list raises `TypeError`);
`set_layouts = [l.set_layout for l in ...] * objlen` repeats the layout
list `objlen` times; `allocate_descriptor_sets` returns one fresh handle
per entry (serials from the running counter `h`); the slicing loop
`for i, obj in zip(range(0, len(set_layouts), objlen), objects):
obj.descriptor_sets = descriptor_sets[i:i+objlen]` walks in strides of
`objlen` (the OBJECT count, not the layout count) and hands each paired
object `objlen` handles. -/
def setup_descriptor_sets_loop (shaders : List DataShader) :
    List (Option Nat × List (Nat × DataGameObject)) →
    List DataGameObject → Nat → Nat →
    Except Err (List DataGameObject × Nat × Nat)
  | [], objs, usize, h => Except.ok (objs, usize, h)
  | (si, members) :: rest, objs, usize, h =>
    match si with
    | none => Except.error Err.typeError
    | some s =>
      match shaders.get? s with
      | none => Except.error Err.indexError
      | some shader =>
        match shader.descriptor_set_layouts with
        | none => Except.error Err.typeError
        | some layouts =>
          let objlen := members.length
          let usize := usize +
            (layouts.map (fun l => l.struct_map_size_bytes)).sum * objlen
          let set_layouts :=
            (List.replicate objlen
              (layouts.map (fun l => l.set_layout))).flatten
          let descriptor_sets :=
            (List.range set_layouts.length).map (fun i => i + h)
          let pairs := (pyRangeStep set_layouts.length objlen).zip members
          let objs := pairs.foldl
            (fun acc p =>
              setDescriptorSetsAt acc p.2.1
                (some ((descriptor_sets.drop p.1).take objlen)))
            objs
          setup_descriptor_sets_loop shaders rest objs usize
            (h + set_layouts.length)

/-- `DataScene._setup_descriptor_sets`: per shader group, batch-allocate
the descriptor sets and slice them onto the objects, accumulating the
uniform buffer size; the uniform buffer is then created with exactly that
size (the allocator is modelled from the spec as returning the requested
size).  Returns the updated objects, the uniform buffer size, and the
next free handle serial. -/
def setup_descriptor_sets (shaders : List DataShader)
    (objs : List DataGameObject) (c : GroupCache) :
    Except Err (List DataGameObject × Nat × Nat) :=
  let (groups, _) := group_objects_cached objs c
  setup_descriptor_sets_loop shaders groups objs 0 0

/-- One concrete `vk.DescriptorBufferInfo`-bearing write set produced by
`generate_write_set`. -/
structure WriteSet where
  dst_set : Nat
  dst_binding : Nat
  descriptor_type : Nat
  offset : Nat
  range : Nat
deriving DecidableEq, Repr

/-- `generate_write_set(wst, descriptor_set)` of
`_setup_descriptor_write_sets`: a uniform-buffer template binds the byte
range `[uniform_offset, uniform_offset + range)` of the shared uniform
buffer and advances the cursor; any other descriptor type raises
`ValueError` (the spec's `UnsupportedDescriptorType`). -/
def generate_write_set (uoff : Nat) (wst : WriteSetTemplate)
    (dset : Nat) : Except Err (WriteSet × Nat) :=
  if wst.descriptor_type = DESCRIPTOR_TYPE_UNIFORM_BUFFER then
    Except.ok (⟨dset, wst.binding, wst.descriptor_type, uoff, wst.range⟩,
               uoff + wst.range)
  else Except.error Err.unsupportedDescriptorType

/-- The `for wst in descriptor_layout.write_set_templates` generator for
one (descriptor set, layout) pair. -/
def write_sets_for_layout (uoff : Nat) (dset : Nat) :
    List WriteSetTemplate → Except Err (List WriteSet × Nat)
  | [] => Except.ok ([], uoff)
  | wst :: rest => do
    let (w, uoff) ← generate_write_set uoff wst dset
    let (ws, uoff) ← write_sets_for_layout uoff dset rest
    pure (w :: ws, uoff)

/-- The `for descriptor_set, descriptor_layout in
zip(obj.descriptor_sets, shader.descriptor_set_layouts)` loop for one
object (`zip` truncates to the shorter list). -/
def write_sets_for_object (uoff : Nat) :
    List (Nat × DescriptorSetLayout) → Except Err (List WriteSet × Nat)
  | [] => Except.ok ([], uoff)
  | (dset, layout) :: rest => do
    let (ws, uoff) ← write_sets_for_layout uoff dset layout.write_set_templates
    let (ws2, uoff) ← write_sets_for_object uoff rest
    pure (ws ++ ws2, uoff)

/-- The `for obj in objects` loop of `_setup_descriptor_write_sets` for
one group: `zip(obj.descriptor_sets, shader.descriptor_set_layouts)`
raises `TypeError` when `obj.descriptor_sets` is still `None`. -/
def write_sets_for_members (layouts : List DescriptorSetLayout)
    (objs : List DataGameObject) (uoff : Nat) :
    List (Nat × DataGameObject) → Except Err (List WriteSet × Nat)
  | [] => Except.ok ([], uoff)
  | m :: rest => do
    let o := (objs.get? m.1).getD m.2
    match o.descriptor_sets with
    | none => Except.error Err.typeError
    | some ds => do
      let (ws, uoff) ← write_sets_for_object uoff (ds.zip layouts)
      let (ws2, uoff) ← write_sets_for_members layouts objs uoff rest
      pure (ws ++ ws2, uoff)

/-- The outer group loop of `_setup_descriptor_write_sets`, threading the
running uniform-buffer cursor `uniform_offset` (initially 0) across all
groups; `shader.descriptor_set_layouts` being `None` raises `TypeError`
inside `zip`. -/
def write_sets_groups_loop (shaders : List DataShader)
    (objs : List DataGameObject) :
    List (Option Nat × List (Nat × DataGameObject)) → Nat →
    Except Err (List WriteSet × Nat)
  | [], uoff => Except.ok ([], uoff)
  | (si, members) :: rest, uoff =>
    match si with
    | none => Except.error Err.typeError
    | some s =>
      match shaders.get? s with
      | none => Except.error Err.indexError
      | some shader =>
        match shader.descriptor_set_layouts with
        | none => Except.error Err.typeError
        | some layouts => do
          let (ws, uoff) ← write_sets_for_members layouts objs uoff members
          let (ws2, uoff) ← write_sets_groups_loop shaders objs rest uoff
          pure (ws ++ ws2, uoff)

/-- `DataScene._setup_descriptor_write_sets`: generate every object's
write sets against the shared uniform buffer; the returned cursor is the
total of all bound byte ranges. -/
def setup_descriptor_write_sets (shaders : List DataShader)
    (objs : List DataGameObject) (c : GroupCache) :
    Except Err (List WriteSet × Nat) :=
  let (groups, _) := group_objects_cached objs c
  write_sets_groups_loop shaders objs groups 0

/-- One command emitted into a command buffer by `DataScene.record`.
The mesh commands carry the object's mesh index; the byte offsets they
would pass come from data_mesh.py, which no claim inspects. -/
inductive RenderCmd where
  | beginRenderPass (framebuffer : Nat)
  | bindPipeline (index : Nat) (p : PipelineInfo)
  | bindDescriptorSets (layout : Handle) (sets : List Nat)
  | bindIndexBuffer (mesh : Nat)
  | bindVertexBuffers (mesh : Nat)
  | drawIndexed (mesh : Nat)
  | endRenderPass
deriving DecidableEq, Repr

/-- The first `if` of the record loop body:
`if obj.shader is not None and current_shader_index != obj.shader:`
refresh the cached current shader from `shaders[obj.shader]`. -/
def record_step_shader (shaders : List DataShader) (obj : DataGameObject)
    (curIdx : Option Nat) (curSh : Option DataShader) :
    Except Err (Option Nat × Option DataShader) :=
  match obj.shader with
  | none => Except.ok (curIdx, curSh)
  | some s =>
    if curIdx = some s then Except.ok (curIdx, curSh)
    else
      match shaders.get? s with
      | none => Except.error Err.indexError
      | some sh => Except.ok (some s, some sh)

/-- The second `if`:
`if obj.pipeline is not None and pipeline_index != obj.pipeline:` bind
`pipelines[pipeline_index]` (out of range raises `IndexError`). -/
def record_step_pipeline (pipelines : List PipelineInfo)
    (obj : DataGameObject) (prev : Option Nat) :
    Except Err (Option Nat × List RenderCmd) :=
  match obj.pipeline with
  | none => Except.ok (prev, [])
  | some p =>
    if prev = some p then Except.ok (prev, [])
    else
      match pipelines.get? p with
      | none => Except.error Err.indexError
      | some info => Except.ok (some p, [RenderCmd.bindPipeline p info])

/-- The third `if`: `if obj.descriptor_sets is not None:` bind the sets
against `current_shader.pipeline_layout` (`current_shader` still `None`
raises `AttributeError`, modelled as `typeError`). -/
def record_step_descriptors (obj : DataGameObject)
    (curSh : Option DataShader) : Except Err (List RenderCmd) :=
  match obj.descriptor_sets with
  | none => Except.ok []
  | some ds =>
    match curSh with
    | none => Except.error Err.typeError
    | some sh =>
      Except.ok [RenderCmd.bindDescriptorSets (Handle.pipelineLayout sh.id) ds]

/-- The fourth `if`: `if obj.mesh is not None:` look up
`meshes[obj.mesh]` and `shaders[obj.shader]`, bind the index and vertex
buffers and issue the indexed draw. -/
def record_step_mesh (shaders : List DataShader) (meshes : List DataMesh)
    (obj : DataGameObject) : Except Err (List RenderCmd) :=
  match obj.mesh with
  | none => Except.ok []
  | some mi =>
    match meshes.get? mi with
    | none => Except.error Err.indexError
    | some _ =>
      match obj.shader with
      | none => Except.error Err.typeError
      | some s =>
        match shaders.get? s with
        | none => Except.error Err.indexError
        | some _ =>
          Except.ok [RenderCmd.bindIndexBuffer mi,
                     RenderCmd.bindVertexBuffers mi,
                     RenderCmd.drawIndexed mi]

/-- The `for obj in self.objects` loop of `DataScene.record`, threading
`current_shader_index` / `current_shader` / `pipeline_index` (all
initially `None`). -/
def record_loop (shaders : List DataShader) (pipelines : List PipelineInfo)
    (meshes : List DataMesh) :
    List DataGameObject → Option Nat → Option DataShader → Option Nat →
    Except Err (List RenderCmd)
  | [], _, _, _ => Except.ok []
  | obj :: rest, curIdx, curSh, prev => do
    let (curIdx, curSh) ← record_step_shader shaders obj curIdx curSh
    let (prev, c1) ← record_step_pipeline pipelines obj prev
    let c2 ← record_step_descriptors obj curSh
    let c3 ← record_step_mesh shaders meshes obj
    let cs ← record_loop shaders pipelines meshes rest curIdx curSh prev
    pure (c1 ++ c2 ++ c3 ++ cs)

/-- `DataScene.record(framebuffer_index)`: begin the render pass against
the given framebuffer, replay the object loop in compiled declaration
order, end the render pass. -/
def record (shaders : List DataShader) (pipelines : List PipelineInfo)
    (meshes : List DataMesh) (objs : List DataGameObject)
    (framebuffer_index : Nat) : Except Err (List RenderCmd) := do
  let cs ← record_loop shaders pipelines meshes objs none none none
  pure (RenderCmd.beginRenderPass framebuffer_index ::
        (cs ++ [RenderCmd.endRenderPass]))

/-- The pipeline index a `bindPipeline` command carries, for filtering the
recorded command stream. -/
def pipelineBindOf : RenderCmd → Option Nat
  | RenderCmd.bindPipeline i _ => some i
  | _ => none

/-- The descriptor-set handle list a `bindDescriptorSets` command
carries. -/
def descriptorBindOf : RenderCmd → Option (List Nat)
  | RenderCmd.bindDescriptorSets _ ds => some ds
  | _ => none

/-- Specification-side description of the pipeline binds `record` emits
from a given previously-bound pipeline: with no previous bind, one bind
per contiguous run of equal values (`destutter`); with pipeline `a`
already bound, the same with a leading run of `a` elided. -/
def specPipelineBinds (prev : Option Nat) (ys : List Nat) : List Nat :=
  match prev with
  | none => ys.destutter (· ≠ ·)
  | some a => (ys.destutter' (· ≠ ·) a).tail

/-- Specification-side first-encounter deduplication of shader keys,
with the already-seen keys as accumulator. -/
def firstDedupAux : List (Option Nat) → List (Option Nat) → List (Option Nat)
  | [], _ => []
  | a :: l, seen =>
    if a ∈ seen then firstDedupAux l seen
    else a :: firstDedupAux l (seen ++ [a])

/-- Specification-side list of distinct shader keys in first-encounter
order ("partition objects by shader index in first-encounter order, not
numerically sorted"). -/
def firstDedup (l : List (Option Nat)) : List (Option Nat) :=
  firstDedupAux l []

/-- The group a key owns, read off a group list (unique by construction
since keys are never duplicated). -/
def getGroup (groups : List (Option Nat × List (Nat × DataGameObject)))
    (k : Option Nat) : List (Nat × DataGameObject) :=
  ((groups.find? (fun g => g.1 = k)).map (fun g => g.2)).getD []

/-- Specification-side first-encounter deduplication of meshes by
identity, with the already-seen identities as accumulator ("deduplicate
meshes by identity"). -/
def dedupFirstBy : List Mesh → List Nat → List Mesh
  | [], _ => []
  | m :: l, seen =>
    if m.ident ∈ seen then dedupFirstBy l seen
    else m :: dedupFirstBy l (seen ++ [m.ident])

/-- The sequence of mesh objects the `_setup_objects` loop encounters:
each object's `meshes[obj.mesh]` entry when it is an in-range,
non-`None` mesh. -/
def referencedMeshes (meshes : List (Option Mesh))
    (objs : List SceneObject) : List Mesh :=
  objs.filterMap (fun o =>
    match o.mesh with
    | none => none
    | some mi => (meshes.get? mi).getD none)

/-- Concrete fixture: a uniform holding a single 4×4 matrix
(`FLOAT_MAT4 = 2`), descriptor type `UNIFORM_BUFFER`, set 0. -/
def uMat4 : UniformDecl :=
  ⟨"u", 0, 0, DESCRIPTOR_TYPE_UNIFORM_BUFFER, 1, 1, [⟨"m", 2, 1⟩]⟩

/-- Concrete fixture: a uniform holding a single 3×3 matrix
(`FLOAT_MAT3 = 1`), set 0. -/
def uMat3 : UniformDecl :=
  ⟨"v", 0, 0, DESCRIPTOR_TYPE_UNIFORM_BUFFER, 1, 1, [⟨"m", 1, 1⟩]⟩

/-- Concrete fixture: a 4×4-matrix uniform declared in descriptor
set 1. -/
def uSet1 : UniformDecl :=
  ⟨"w", 1, 0, DESCRIPTOR_TYPE_UNIFORM_BUFFER, 1, 1, [⟨"m", 2, 1⟩]⟩

/-- The descriptor-set layout `DataShader.compile` produces for
`uMat4` (packed struct size `sizeof(c_float*16) = 64`). -/
def layoutMat4 : DescriptorSetLayout :=
  ⟨0, [("u", 64)], [(6, 1)], [⟨0, 6, 1, 1⟩], [⟨6, 64, 0⟩]⟩

/-- The compiled shader for the mapping `[uMat4]` (shader id 0): one
descriptor set layout of packed size 64. -/
def shaderMat4 : DataShader := ⟨0, [0, 1], some [layoutMat4], [0]⟩

/-- The compiled shader for the mapping `[uMat4, uSet1]` (shader id 0):
two descriptor set layouts of packed size 64 each. -/
def shaderTwoSets : DataShader :=
  ⟨0, [0, 1],
   some [layoutMat4,
         ⟨1, [("w", 64)], [(6, 1)], [⟨0, 6, 1, 1⟩], [⟨6, 64, 0⟩]⟩],
   [0, 1]⟩

/-- Compiled shader fixture with no uniforms, id 0. -/
def shaderPlain0 : DataShader := ⟨0, [0, 1], none, []⟩

/-- Compiled shader fixture with no uniforms, id 1. -/
def shaderPlain1 : DataShader := ⟨1, [0, 1], none, []⟩

/-- Object fixture referencing shader 0, nothing backfilled yet. -/
def objShader0 : DataGameObject := ⟨some 0, none, none, none⟩

/-- Object fixture referencing shader 1, nothing backfilled yet. -/
def objShader1 : DataGameObject := ⟨some 1, none, none, none⟩

/-- Record fixture: four compiled objects with interleaved pipelines
`[0, 0, 1, 0]`; the first also has a mesh and a descriptor-set list. -/
def recordObjs : List DataGameObject :=
  [⟨some 0, some 0, some 0, some [5]⟩, ⟨some 0, none, some 0, none⟩,
   ⟨some 1, none, some 1, none⟩, ⟨some 0, none, some 0, none⟩]

/-- Record fixture: the two pipelines of the two plain shaders. -/
def recordPipelines : List PipelineInfo :=
  [mkPipelineInfo shaderPlain0, mkPipelineInfo shaderPlain1]

/-- Record fixture: the command stream `record` emits for `recordObjs` on
framebuffer 0. -/
def recordCmds : List RenderCmd :=
  [RenderCmd.beginRenderPass 0,
   RenderCmd.bindPipeline 0 (mkPipelineInfo shaderPlain0),
   RenderCmd.bindDescriptorSets (Handle.pipelineLayout 0) [5],
   RenderCmd.bindIndexBuffer 0, RenderCmd.bindVertexBuffers 0,
   RenderCmd.drawIndexed 0,
   RenderCmd.bindPipeline 1 (mkPipelineInfo shaderPlain1),
   RenderCmd.bindPipeline 0 (mkPipelineInfo shaderPlain0),
   RenderCmd.endRenderPass]

/-- C1: evaluating descriptor-set allocation on a group of two objects
sharing a one-set-layout shader.  The batched call does allocate
`object_count × set_layout_count = 2` descriptor sets (handles 0 and 1),
but the slicing loop strides by the object count instead of the
set-layout count: the first object receives BOTH handles `[0, 1]` and the
second object keeps `descriptor_sets = None`, instead of `[0]` and `[1]`
as the claim states. -/
theorem C1_descriptor_set_slicing_eval :
    DataShader.compile 0 [uMat4] = Except.ok shaderMat4 ∧
    setup_descriptor_sets [shaderMat4] [objShader0, objShader0] ⟨false, []⟩ =
      Except.ok ([⟨some 0, none, none, some [0, 1]⟩,
                  ⟨some 0, none, none, none⟩], 128, 2) ∧
    (some [(0 : Nat), 1] : Option (List Nat)) ≠ some [0] :=
  ⟨rfl, rfl, by decide⟩

/-- C2: evaluating pipeline build on two objects whose shaders appear in
first-encounter order `[1, 0]`.  The batched list holds one pipeline per
distinct shader (built for shader 1 first, then shader 0), but each
object's backfilled `pipeline` is its SHADER index, so object 0
(shader 1) points at list position 1, which holds the pipeline built for
shader 0, not its own. -/
theorem C2_pipeline_backfill_eval :
    setup_pipelines [shaderPlain0, shaderPlain1] [objShader1, objShader0]
        ⟨false, []⟩ =
      Except.ok
        ([mkPipelineInfo shaderPlain1, mkPipelineInfo shaderPlain0],
         [⟨some 1, none, some 1, none⟩, ⟨some 0, none, some 0, none⟩],
         ⟨true, [(some 1, [(0, objShader1)]), (some 0, [(1, objShader0)])]⟩) ∧
    [mkPipelineInfo shaderPlain1,
     mkPipelineInfo shaderPlain0].get? 1 = some (mkPipelineInfo shaderPlain0) ∧
    mkPipelineInfo shaderPlain0 ≠ mkPipelineInfo shaderPlain1 :=
  ⟨rfl, rfl, by decide⟩

/-- C3: evaluating descriptor-set allocation and write-set generation on
one object whose shader declares two descriptor sets (64 packed bytes
each).  The uniform buffer is sized `64 + 64 = 128`, but the mis-sliced
`descriptor_sets` of the object holds a single handle, so the write-set
`zip` truncates to one layout and the running cursor stops at 64:
the total of the bound byte ranges does not equal the allocated
uniform-buffer size. -/
theorem C3_uniform_cursor_eval :
    DataShader.compile 0 [uMat4, uSet1] = Except.ok shaderTwoSets ∧
    setup_descriptor_sets [shaderTwoSets] [objShader0] ⟨false, []⟩ =
      Except.ok ([⟨some 0, none, none, some [0]⟩], 128, 2) ∧
    setup_descriptor_write_sets [shaderTwoSets]
        [⟨some 0, none, none, some [0]⟩] ⟨false, []⟩ =
      Except.ok ([⟨0, 0, 6, 0, 64⟩], 64) ∧
    (64 : Nat) ≠ 128 :=
  ⟨rfl, rfl, rfl, by decide⟩

/-- C7 counterexample: a uniform block holding a single 3×3 matrix packs
to `sizeof(c_float*9) = 36` bytes (ctypes `_pack_ = 16` caps alignment,
it does not round the size up), recorded verbatim as the write-set
template range — and 36 is not a multiple of 16. -/
theorem C7_mat3_not_16_aligned :
    setup_descriptor_layouts [uMat3] =
      Except.ok (some [⟨0, [("v", 36)], [(6, 1)], [⟨0, 6, 1, 1⟩],
                       [⟨6, 36, 0⟩]⟩]) ∧
    ¬ (16 ∣ (36 : Nat)) :=
  ⟨rfl, by decide⟩

/-- C9 counterexample: for a compiled shader owning one descriptor set
layout, `free()` destroys the set layout first, then the pipeline layout,
then the modules in forward order — which differs from the
reverse-acquisition order (pipeline layout first, then set layout, then
the modules reversed). -/
theorem C9_free_not_reverse_acquisition :
    DataShader.compile 0 [uMat4] = Except.ok shaderMat4 ∧
    shaderMat4.free =
      Except.ok [Handle.setLayout 0 0, Handle.pipelineLayout 0,
                 Handle.module 0 0, Handle.module 0 1] ∧
    shaderMat4.acquisitionOrder.reverse =
      [Handle.pipelineLayout 0, Handle.setLayout 0 0,
       Handle.module 0 1, Handle.module 0 0] ∧
    ([Handle.setLayout 0 0, Handle.pipelineLayout 0,
      Handle.module 0 0, Handle.module 0 1] : List Handle) ≠
      [Handle.pipelineLayout 0, Handle.setLayout 0 0,
       Handle.module 0 1, Handle.module 0 0] :=
  ⟨rfl, rfl, rfl, by decide⟩

theorem structsSet_mem (l : List (String × Nat)) (k : String) (v : Nat) :
    ∀ p ∈ structsSet l k v, p ∈ l ∨ p.2 = v := by
  intro p hp
  unfold structsSet at hp
  split at hp
  · obtain ⟨q, hq, heq⟩ := List.mem_map.mp hp
    by_cases hk : q.1 = k
    · right; rw [if_pos hk] at heq; rw [← heq]
    · left; rw [if_neg hk] at heq; rwa [← heq]
  · rcases List.mem_append.mp hp with h1 | h1
    · left; exact h1
    · right; rw [List.mem_singleton.mp h1]

theorem setupSetUniform_div4 (acc acc2 : SetAccum) (u : UniformDecl)
    (h : setupSetUniform acc u = Except.ok acc2)
    (hw : ∀ w ∈ acc.wst, 4 ∣ w.range)
    (hs : ∀ p ∈ acc.structs, 4 ∣ p.2) :
    (∀ w ∈ acc2.wst, 4 ∣ w.range) ∧ (∀ p ∈ acc2.structs, 4 ∣ p.2) := by
  unfold setupSetUniform at h
  cases hm : mapCtypes u.fields with
  | error e => rw [hm] at h; exact absurd h (by simp [Bind.bind, Except.bind])
  | ok ctys =>
    rw [hm] at h
    simp only [Bind.bind, Except.bind, pure, Except.pure] at h
    obtain rfl := Except.ok.inj h
    constructor
    · intro w hmem
      rcases List.mem_append.mp hmem with h1 | h1
      · exact hw w h1
      · rw [List.mem_singleton.mp h1]
        exact Nat.dvd_mul_right 4 ((ctys.map (fun f => f.length)).sum)
    · intro p hmem
      rcases structsSet_mem _ _ _ p hmem with h1 | h1
      · exact hs p h1
      · rw [h1]
        exact Nat.dvd_mul_right 4 ((ctys.map (fun f => f.length)).sum)

theorem buildSetAccum_div4 (us : List UniformDecl) :
    ∀ acc acc2, buildSetAccum acc us = Except.ok acc2 →
    (∀ w ∈ acc.wst, 4 ∣ w.range) → (∀ p ∈ acc.structs, 4 ∣ p.2) →
    (∀ w ∈ acc2.wst, 4 ∣ w.range) ∧ (∀ p ∈ acc2.structs, 4 ∣ p.2) := by
  induction us with
  | nil =>
    intro acc acc2 h hw hs
    unfold buildSetAccum at h
    obtain rfl := Except.ok.inj h
    exact ⟨hw, hs⟩
  | cons u rest ih =>
    intro acc acc2 h hw hs
    unfold buildSetAccum at h
    cases hu : setupSetUniform acc u with
    | error e => rw [hu] at h; exact absurd h (by simp [Bind.bind, Except.bind])
    | ok a =>
      rw [hu] at h
      simp only [Bind.bind, Except.bind] at h
      obtain ⟨hw2, hs2⟩ := setupSetUniform_div4 acc a u hu hw hs
      exact ih a acc2 h hw2 hs2

theorem buildLayouts_div4 (gs : List (Nat × List UniformDecl)) :
    ∀ i ls, buildLayouts i gs = Except.ok ls →
    ∀ l ∈ ls, (∀ w ∈ l.write_set_templates, 4 ∣ w.range) ∧
      (∀ p ∈ l.struct_map, 4 ∣ p.2) := by
  induction gs with
  | nil =>
    intro i ls h l hl
    unfold buildLayouts at h
    obtain rfl := Except.ok.inj h
    exact absurd hl (List.not_mem_nil l)
  | cons g rest ih =>
    intro i ls h l hl
    unfold buildLayouts at h
    cases ha : buildSetAccum ⟨[], [], [], []⟩ g.2 with
    | error e => rw [ha] at h; exact absurd h (by simp [Bind.bind, Except.bind])
    | ok acc =>
      rw [ha] at h
      cases hr : buildLayouts (i + 1) rest with
      | error e =>
        rw [hr] at h; exact absurd h (by simp [Bind.bind, Except.bind])
      | ok restL =>
        rw [hr] at h
        simp only [Bind.bind, Except.bind, pure, Except.pure] at h
        obtain rfl := Except.ok.inj h
        rcases List.mem_cons.mp hl with h1 | h1
        · obtain ⟨hw, hs⟩ := buildSetAccum_div4 g.2 ⟨[], [], [], []⟩ acc ha
            (by intro w hw; exact absurd hw (List.not_mem_nil w))
            (by intro p hp; exact absurd hp (List.not_mem_nil p))
          subst h1
          exact ⟨hw, hs⟩
        · exact ih (i + 1) restL hr l h1

/-- C7 amended: every packed uniform-block byte size the shader compiler
records — the write-set template `range` and every struct size summed
into `struct_map_size_bytes` — is a multiple of 4 (the `c_float` size);
ctypes `_pack_ = 16` caps field alignment and does not round sizes up to
16. -/
theorem C7_packed_size_multiple_of_4 (uniforms : List UniformDecl)
    (ls : List DescriptorSetLayout) (l : DescriptorSetLayout)
    (w : WriteSetTemplate)
    (h : setup_descriptor_layouts uniforms = Except.ok (some ls))
    (hl : l ∈ ls) (hw : w ∈ l.write_set_templates) :
    4 ∣ w.range ∧ 4 ∣ l.struct_map_size_bytes := by
  unfold setup_descriptor_layouts at h
  split at h
  · exact absurd (Except.ok.inj h) (by simp)
  · cases hb : buildLayouts 0 (group_uniforms_by_sets uniforms) with
    | error e => rw [hb] at h; exact absurd h (by simp [Bind.bind, Except.bind])
    | ok ls2 =>
      rw [hb] at h
      simp only [Bind.bind, Except.bind, pure, Except.pure] at h
      have hse : ls2 = ls := Option.some.inj (Except.ok.inj h)
      rw [hse] at hb
      obtain ⟨hwr, hsr⟩ := buildLayouts_div4 _ 0 ls hb l hl
      refine ⟨hwr w hw, ?_⟩
      unfold DescriptorSetLayout.struct_map_size_bytes
      refine List.dvd_sum ?_
      intro x hx
      obtain ⟨p, hp, rfl⟩ := List.mem_map.mp hx
      exact hsr p hp

/-- Witness for C7: the 4×4-matrix uniform block packs to 64 bytes, whose
template range and per-set packed size are multiples of 4. -/
theorem C7_packed_size_multiple_of_4_witness :
    4 ∣ (⟨6, 64, 0⟩ : WriteSetTemplate).range ∧
    4 ∣ layoutMat4.struct_map_size_bytes :=
  C7_packed_size_multiple_of_4 [uMat4] [layoutMat4] layoutMat4 ⟨6, 64, 0⟩
    rfl (by simp) (by simp [layoutMat4])

theorem uniform_member_as_ctype_error (v c : Nat) (e : Err)
    (h : uniform_member_as_ctype v c = Except.error e) :
    e = Err.invalidUniformType := by
  unfold uniform_member_as_ctype at h
  split at h
  · exact absurd h (by simp)
  · split at h
    · exact absurd h (by simp)
    · split at h
      · exact absurd h (by simp)
      · exact (Except.error.inj h).symm

theorem uniform_member_as_ctype_ok_valid (v c : Nat) (a : CFloatArray)
    (h : uniform_member_as_ctype v c = Except.ok a) : v < 3 := by
  unfold uniform_member_as_ctype at h
  split at h
  · omega
  · split at h
    · omega
    · split at h
      · omega
      · exact absurd h (by simp)

theorem mapCtypes_error (fs : List UniformField) :
    ∀ e, mapCtypes fs = Except.error e → e = Err.invalidUniformType := by
  induction fs with
  | nil => intro e h; exact absurd h (by simp [mapCtypes])
  | cons f rest ih =>
    intro e h
    unfold mapCtypes at h
    cases hc : uniform_member_as_ctype f.type f.count with
    | error e2 =>
      rw [hc] at h
      simp only [Bind.bind, Except.bind] at h
      rw [uniform_member_as_ctype_error _ _ _ hc] at h
      exact (Except.error.inj h).symm
    | ok c =>
      rw [hc] at h
      simp only [Bind.bind, Except.bind] at h
      cases hr : mapCtypes rest with
      | error e2 =>
        rw [hr] at h
        rw [ih e2 hr] at h
        exact (Except.error.inj h).symm
      | ok cs =>
        rw [hr] at h
        exact absurd h (by simp [pure, Except.pure])

theorem mapCtypes_ok_valid (fs : List UniformField) :
    ∀ cs, mapCtypes fs = Except.ok cs → ∀ f ∈ fs, f.type < 3 := by
  induction fs with
  | nil => intro cs h f hf; exact absurd hf (List.not_mem_nil f)
  | cons g rest ih =>
    intro cs h f hf
    unfold mapCtypes at h
    cases hc : uniform_member_as_ctype g.type g.count with
    | error e =>
      rw [hc] at h; exact absurd h (by simp [Bind.bind, Except.bind])
    | ok c =>
      rw [hc] at h
      simp only [Bind.bind, Except.bind] at h
      cases hr : mapCtypes rest with
      | error e =>
        rw [hr] at h; exact absurd h (by simp)
      | ok cs2 =>
        rcases List.mem_cons.mp hf with h1 | h1
        · subst h1; exact uniform_member_as_ctype_ok_valid _ _ _ hc
        · exact ih cs2 hr f h1

theorem setupSetUniform_error (acc : SetAccum) (u : UniformDecl) (e : Err)
    (h : setupSetUniform acc u = Except.error e) :
    e = Err.invalidUniformType := by
  unfold setupSetUniform at h
  cases hc : mapCtypes u.fields with
  | error e2 =>
    rw [hc] at h
    simp only [Bind.bind, Except.bind] at h
    rw [mapCtypes_error _ _ hc] at h
    exact (Except.error.inj h).symm
  | ok ctys =>
    rw [hc] at h
    exact absurd h (by simp [Bind.bind, Except.bind, pure, Except.pure])

theorem setupSetUniform_ok_valid (acc acc2 : SetAccum) (u : UniformDecl)
    (h : setupSetUniform acc u = Except.ok acc2) :
    ∀ f ∈ u.fields, f.type < 3 := by
  unfold setupSetUniform at h
  cases hc : mapCtypes u.fields with
  | error e => rw [hc] at h; exact absurd h (by simp [Bind.bind, Except.bind])
  | ok ctys => exact mapCtypes_ok_valid _ ctys hc

theorem buildSetAccum_error (us : List UniformDecl) :
    ∀ acc e, buildSetAccum acc us = Except.error e →
    e = Err.invalidUniformType := by
  induction us with
  | nil => intro acc e h; exact absurd h (by simp [buildSetAccum])
  | cons u rest ih =>
    intro acc e h
    unfold buildSetAccum at h
    cases hu : setupSetUniform acc u with
    | error e2 =>
      rw [hu] at h
      simp only [Bind.bind, Except.bind] at h
      rw [setupSetUniform_error _ _ _ hu] at h
      exact (Except.error.inj h).symm
    | ok a =>
      rw [hu] at h
      simp only [Bind.bind, Except.bind] at h
      exact ih a e h

theorem buildSetAccum_ok_valid (us : List UniformDecl) :
    ∀ acc acc2, buildSetAccum acc us = Except.ok acc2 →
    ∀ u ∈ us, ∀ f ∈ u.fields, f.type < 3 := by
  induction us with
  | nil => intro acc acc2 h u hu; exact absurd hu (List.not_mem_nil u)
  | cons v rest ih =>
    intro acc acc2 h u hu
    unfold buildSetAccum at h
    cases hv : setupSetUniform acc v with
    | error e => rw [hv] at h; exact absurd h (by simp [Bind.bind, Except.bind])
    | ok a =>
      rw [hv] at h
      simp only [Bind.bind, Except.bind] at h
      rcases List.mem_cons.mp hu with h1 | h1
      · subst h1; exact setupSetUniform_ok_valid acc a u hv
      · exact ih a acc2 h u h1

theorem buildLayouts_error (gs : List (Nat × List UniformDecl)) :
    ∀ i e, buildLayouts i gs = Except.error e →
    e = Err.invalidUniformType := by
  induction gs with
  | nil => intro i e h; exact absurd h (by simp [buildLayouts])
  | cons g rest ih =>
    intro i e h
    unfold buildLayouts at h
    cases ha : buildSetAccum ⟨[], [], [], []⟩ g.2 with
    | error e2 =>
      rw [ha] at h
      simp only [Bind.bind, Except.bind] at h
      rw [buildSetAccum_error _ _ _ ha] at h
      exact (Except.error.inj h).symm
    | ok acc =>
      rw [ha] at h
      simp only [Bind.bind, Except.bind] at h
      cases hr : buildLayouts (i + 1) rest with
      | error e2 =>
        rw [hr] at h
        rw [ih (i + 1) e2 hr] at h
        exact (Except.error.inj h).symm
      | ok restL =>
        rw [hr] at h
        exact absurd h (by simp [pure, Except.pure])

theorem buildLayouts_ok_valid (gs : List (Nat × List UniformDecl)) :
    ∀ i ls, buildLayouts i gs = Except.ok ls →
    ∀ g ∈ gs, ∀ u ∈ g.2, ∀ f ∈ u.fields, f.type < 3 := by
  induction gs with
  | nil => intro i ls h g hg; exact absurd hg (List.not_mem_nil g)
  | cons g0 rest ih =>
    intro i ls h g hg
    unfold buildLayouts at h
    cases ha : buildSetAccum ⟨[], [], [], []⟩ g0.2 with
    | error e => rw [ha] at h; exact absurd h (by simp [Bind.bind, Except.bind])
    | ok acc =>
      rw [ha] at h
      simp only [Bind.bind, Except.bind] at h
      cases hr : buildLayouts (i + 1) rest with
      | error e => rw [hr] at h; exact absurd h (by simp)
      | ok restL =>
        rcases List.mem_cons.mp hg with h1 | h1
        · subst h1; exact buildSetAccum_ok_valid _ _ _ ha
        · exact ih (i + 1) restL hr g h1

theorem dictAppend_mem_persist (l : List (Nat × List UniformDecl))
    (k : Nat) (v : UniformDecl) (g : Nat × List UniformDecl)
    (u : UniformDecl) (hg : g ∈ l) (hu : u ∈ g.2) :
    ∃ g2 ∈ dictAppend l k v, u ∈ g2.2 := by
  unfold dictAppend
  split
  · refine ⟨if g.1 = k then (g.1, g.2 ++ [v]) else g, ?_, ?_⟩
    · exact List.mem_map.mpr ⟨g, hg, rfl⟩
    · by_cases hk : g.1 = k
      · rw [if_pos hk]; exact List.mem_append.mpr (Or.inl hu)
      · rw [if_neg hk]; exact hu
  · exact ⟨g, List.mem_append.mpr (Or.inl hg), hu⟩

theorem dictAppend_mem_new (l : List (Nat × List UniformDecl))
    (u : UniformDecl) :
    ∃ g ∈ dictAppend l u.set u, u ∈ g.2 := by
  unfold dictAppend
  split
  · rename_i hany
    obtain ⟨g, hg, hk⟩ := List.any_eq_true.mp hany
    refine ⟨(g.1, g.2 ++ [u]), ?_, ?_⟩
    · refine List.mem_map.mpr ⟨g, hg, ?_⟩
      rw [if_pos (of_decide_eq_true hk)]
    · exact List.mem_append.mpr (Or.inr (List.mem_singleton.mpr rfl))
  · exact ⟨(u.set, [u]), List.mem_append.mpr (Or.inr (by simp)),
      List.mem_singleton.mpr rfl⟩

theorem foldl_dictAppend_persist (us : List UniformDecl) :
    ∀ acc (g : Nat × List UniformDecl) (u : UniformDecl), g ∈ acc → u ∈ g.2 →
    ∃ g2 ∈ us.foldl (fun a x => dictAppend a x.set x) acc, u ∈ g2.2 := by
  induction us with
  | nil => intro acc g u hg hu; exact ⟨g, hg, hu⟩
  | cons x rest ih =>
    intro acc g u hg hu
    obtain ⟨g2, hg2, hu2⟩ := dictAppend_mem_persist acc x.set x g u hg hu
    exact ih (dictAppend acc x.set x) g2 u hg2 hu2

theorem mem_group_uniforms_by_sets (us : List UniformDecl) :
    ∀ u ∈ us, ∃ g ∈ group_uniforms_by_sets us, u ∈ g.2 := by
  unfold group_uniforms_by_sets
  suffices h : ∀ acc, ∀ u ∈ us,
      ∃ g ∈ us.foldl (fun a x => dictAppend a x.set x) acc, u ∈ g.2 by
    intro u hu; exact h [] u hu
  induction us with
  | nil => intro acc u hu; exact absurd hu (List.not_mem_nil u)
  | cons x rest ih =>
    intro acc u hu
    rcases List.mem_cons.mp hu with h1 | h1
    · subst h1
      obtain ⟨g, hg, hu2⟩ := dictAppend_mem_new acc u
      exact foldl_dictAppend_persist rest (dictAppend acc u.set u) g u hg hu2
    · exact ih (dictAppend acc x.set x) u h1

theorem setup_descriptor_layouts_error (us : List UniformDecl) (e : Err)
    (h : setup_descriptor_layouts us = Except.error e) :
    e = Err.invalidUniformType := by
  unfold setup_descriptor_layouts at h
  split at h
  · exact absurd h (by simp)
  · cases hb : buildLayouts 0 (group_uniforms_by_sets us) with
    | error e2 =>
      rw [hb] at h
      simp only [Bind.bind, Except.bind] at h
      rw [buildLayouts_error _ _ _ hb] at h
      exact (Except.error.inj h).symm
    | ok ls =>
      rw [hb] at h
      exact absurd h (by simp [Bind.bind, Except.bind, pure, Except.pure])

theorem setup_descriptor_layouts_ok_valid (us : List UniformDecl)
    (r : Option (List DescriptorSetLayout))
    (h : setup_descriptor_layouts us = Except.ok r) :
    ∀ u ∈ us, ∀ f ∈ u.fields, f.type < 3 := by
  intro u hu f hf
  unfold setup_descriptor_layouts at h
  split at h
  · rename_i hlen
    rw [List.length_eq_zero.mp hlen] at hu
    exact absurd hu (List.not_mem_nil u)
  · cases hb : buildLayouts 0 (group_uniforms_by_sets us) with
    | error e => rw [hb] at h; exact absurd h (by simp [Bind.bind, Except.bind])
    | ok ls =>
      obtain ⟨g, hg, hug⟩ := mem_group_uniforms_by_sets us u hu
      exact buildLayouts_ok_valid _ 0 ls hb g hg u hug f hf

/-- C8: the uniform member type mapping sends a member of count `c` to a
float array of `c*4` elements for a 2×2 matrix (raw value 0), `c*9` for
3×3 (1), `c*16` for 4×4 (2); any raw value outside these three raises
`InvalidUniformType`, and a shader mapping containing such a member fails
compilation with exactly that error. -/
theorem C8_uniform_member_mapping (c v : Nat) (uniforms : List UniformDecl)
    (u : UniformDecl) (f : UniformField)
    (hu : u ∈ uniforms) (hf : f ∈ u.fields)
    (hbad : 2 < f.type) (hv : 2 < v) :
    uniform_member_as_ctype 0 c = Except.ok ⟨c * 4⟩ ∧
    uniform_member_as_ctype 1 c = Except.ok ⟨c * 9⟩ ∧
    uniform_member_as_ctype 2 c = Except.ok ⟨c * 16⟩ ∧
    uniform_member_as_ctype v c = Except.error Err.invalidUniformType ∧
    setup_descriptor_layouts uniforms = Except.error Err.invalidUniformType := by
  refine ⟨rfl, rfl, rfl, ?_, ?_⟩
  · unfold uniform_member_as_ctype
    rw [if_neg (by omega), if_neg (by omega), if_neg (by omega)]
  · cases hres : setup_descriptor_layouts uniforms with
    | error e => rw [setup_descriptor_layouts_error _ _ hres]
    | ok r =>
      have := setup_descriptor_layouts_ok_valid _ _ hres u hu f hf
      omega

/-- Witness for C8: `c = 1`, `v = 3`, and a mapping holding one uniform
whose single field has the invalid raw member type 3. -/
theorem C8_uniform_member_mapping_witness :
    uniform_member_as_ctype 0 1 = Except.ok ⟨1 * 4⟩ ∧
    uniform_member_as_ctype 1 1 = Except.ok ⟨1 * 9⟩ ∧
    uniform_member_as_ctype 2 1 = Except.ok ⟨1 * 16⟩ ∧
    uniform_member_as_ctype 3 1 = Except.error Err.invalidUniformType ∧
    setup_descriptor_layouts
        [⟨"b", 0, 0, DESCRIPTOR_TYPE_UNIFORM_BUFFER, 1, 1, [⟨"x", 3, 1⟩]⟩] =
      Except.error Err.invalidUniformType :=
  C8_uniform_member_mapping 1 3
    [⟨"b", 0, 0, DESCRIPTOR_TYPE_UNIFORM_BUFFER, 1, 1, [⟨"x", 3, 1⟩]⟩]
    ⟨"b", 0, 0, DESCRIPTOR_TYPE_UNIFORM_BUFFER, 1, 1, [⟨"x", 3, 1⟩]⟩
    ⟨"x", 3, 1⟩ (by simp) (by simp) (by decide) (by decide)

theorem buildLayouts_serials (gs : List (Nat × List UniformDecl)) :
    ∀ i ls, buildLayouts i gs = Except.ok ls →
    ls.map (fun l => l.set_layout) =
      (List.range ls.length).map (fun j => j + i) := by
  induction gs with
  | nil =>
    intro i ls h
    have : ([] : List DescriptorSetLayout) = ls := Except.ok.inj h
    subst this
    simp
  | cons g rest ih =>
    intro i ls h
    unfold buildLayouts at h
    cases ha : buildSetAccum ⟨[], [], [], []⟩ g.2 with
    | error e => rw [ha] at h; exact absurd h (by simp [Bind.bind, Except.bind])
    | ok acc =>
      rw [ha] at h
      simp only [Bind.bind, Except.bind] at h
      cases hr : buildLayouts (i + 1) rest with
      | error e => rw [hr] at h; exact absurd h (by simp)
      | ok restL =>
        rw [hr] at h
        simp only [pure, Except.pure] at h
        have hcons :
            (⟨i, acc.structs, acc.counts, acc.bindings, acc.wst⟩ :
              DescriptorSetLayout) :: restL = ls := Except.ok.inj h
        subst hcons
        have hihr := ih (i + 1) restL hr
        simp only [List.map_cons, List.length_cons, List.range_succ_eq_map,
          List.map_map, List.cons.injEq]
        refine ⟨by omega, ?_⟩
        rw [hihr]
        exact List.map_congr_left (fun x _ => by
          simp only [Function.comp_apply]
          omega)

theorem setup_descriptor_layouts_serials (us : List UniformDecl)
    (ls : List DescriptorSetLayout)
    (h : setup_descriptor_layouts us = Except.ok (some ls)) :
    ls.map (fun l => l.set_layout) =
      (List.range ls.length).map (fun j => j + 0) := by
  unfold setup_descriptor_layouts at h
  split at h
  · exact absurd (Except.ok.inj h) (by simp)
  · cases hb : buildLayouts 0 (group_uniforms_by_sets us) with
    | error e => rw [hb] at h; exact absurd h (by simp [Bind.bind, Except.bind])
    | ok ls2 =>
      rw [hb] at h
      simp only [Bind.bind, Except.bind, pure, Except.pure] at h
      have hse : ls2 = ls := Option.some.inj (Except.ok.inj h)
      rw [hse] at hb
      exact buildLayouts_serials _ 0 ls hb

/-- C9 amended: for every compiled shader that owns descriptor set
layouts, `free()` destroys every owned handle exactly once (the
destruction sequence is duplicate-free and a permutation of the
acquisition sequence), in the order: descriptor set layouts (acquisition
order), then the pipeline layout, then the stage modules (acquisition
order) — not in reverse-acquisition order. -/
theorem C9_free_exactly_once (id : Nat) (uniforms : List UniformDecl)
    (s : DataShader) (ls : List DescriptorSetLayout) (order : List Handle)
    (hc : DataShader.compile id uniforms = Except.ok s)
    (hls : s.descriptor_set_layouts = some ls)
    (ho : s.free = Except.ok order) :
    order = (ls.map (fun l => Handle.setLayout s.id l.set_layout)) ++
            [Handle.pipelineLayout s.id] ++
            (s.modules.map (Handle.module s.id)) ∧
    order.Perm s.acquisitionOrder ∧ order.Nodup := by
  unfold DataShader.compile at hc
  cases hsd : setup_descriptor_layouts uniforms with
  | error e => rw [hsd] at hc; exact absurd hc (by simp [Bind.bind, Except.bind])
  | ok layouts =>
    rw [hsd] at hc
    simp only [Bind.bind, Except.bind, pure, Except.pure] at hc
    have hs : (⟨id, [0, 1], layouts,
        ((layouts.getD []).map (fun l => l.set_layout))⟩ : DataShader) = s :=
      Except.ok.inj hc
    subst hs
    simp only at hls
    subst hls
    unfold DataShader.free at ho
    simp only at ho
    have horder := (Except.ok.inj ho).symm
    subst horder
    refine ⟨rfl, ?_, ?_⟩
    · unfold DataShader.acquisitionOrder
      simp only [Option.getD_some]
      refine List.Perm.trans List.perm_append_comm ?_
      rw [List.append_assoc]
    · have hser := setup_descriptor_layouts_serials uniforms ls hsd
      have hnods : (ls.map (fun l => l.set_layout)).Nodup := by
        rw [hser]
        exact (List.nodup_range _).map (fun a b hab => by omega)
      have hA : (ls.map (fun l => Handle.setLayout id l.set_layout)).Nodup := by
        have h2 : ls.map (fun l => Handle.setLayout id l.set_layout) =
            (ls.map (fun l => l.set_layout)).map (Handle.setLayout id) := by
          simp [List.map_map]
        rw [h2]
        refine hnods.map ?_
        intro a b hab
        injection hab
      rw [List.append_assoc, List.nodup_append]
      refine ⟨hA, by simp, ?_⟩
      intro a haA hb
      obtain ⟨l, _, rfl⟩ := List.mem_map.mp haA
      simp [List.mem_append, List.mem_cons] at hb

/-- Witness for C9: the one-uniform shader `shaderMat4`. -/
theorem C9_free_exactly_once_witness :
    ([Handle.setLayout 0 0, Handle.pipelineLayout 0,
      Handle.module 0 0, Handle.module 0 1] : List Handle) =
      ([layoutMat4].map (fun l => Handle.setLayout shaderMat4.id l.set_layout)) ++
      [Handle.pipelineLayout shaderMat4.id] ++
      (shaderMat4.modules.map (Handle.module shaderMat4.id)) ∧
    ([Handle.setLayout 0 0, Handle.pipelineLayout 0,
      Handle.module 0 0, Handle.module 0 1] : List Handle).Perm
      shaderMat4.acquisitionOrder ∧
    ([Handle.setLayout 0 0, Handle.pipelineLayout 0,
      Handle.module 0 0, Handle.module 0 1] : List Handle).Nodup :=
  C9_free_exactly_once 0 [uMat4] shaderMat4 [layoutMat4]
    [Handle.setLayout 0 0, Handle.pipelineLayout 0,
     Handle.module 0 0, Handle.module 0 1] rfl rfl rfl

theorem group_update_keys
    (groups : List (Option Nat × List (Nat × DataGameObject)))
    (k : Option Nat) (x : Nat × DataGameObject) :
    (groups.map (fun g => if g.1 = k then (g.1, g.2 ++ [x]) else g)).map
        (fun g => g.1) = groups.map (fun g => g.1) := by
  rw [List.map_map]
  refine List.map_congr_left ?_
  intro g _
  simp only [Function.comp_apply]
  split <;> rfl

theorem firstDedupAux_cons (a : Option Nat) (l seen : List (Option Nat)) :
    firstDedupAux (a :: l) seen =
      if a ∈ seen then firstDedupAux l seen
      else a :: firstDedupAux l (seen ++ [a]) := rfl

theorem group_loop_keys (rest : List (Nat × DataGameObject)) :
    ∀ groups, (group_loop rest groups).map (fun g => g.1) =
      groups.map (fun g => g.1) ++
      firstDedupAux (rest.map (fun p => p.2.shader))
        (groups.map (fun g => g.1)) := by
  induction rest with
  | nil => intro groups; simp [group_loop, firstDedupAux]
  | cons p rest ih =>
    intro groups
    obtain ⟨i, o⟩ := p
    unfold group_loop
    by_cases h : o.shader ∈ groups.map (fun g => g.1)
    · rw [if_pos h, ih, group_update_keys]
      simp only [List.map_cons]
      rw [firstDedupAux_cons, if_pos h]
    · rw [if_neg h, ih]
      simp only [List.map_cons]
      rw [firstDedupAux_cons, if_neg h]
      simp

theorem firstDedupAux_nodup (l : List (Option Nat)) :
    ∀ seen, seen.Nodup → (seen ++ firstDedupAux l seen).Nodup := by
  induction l with
  | nil => intro seen h; simpa [firstDedupAux]
  | cons a l ih =>
    intro seen h
    unfold firstDedupAux
    by_cases ha : a ∈ seen
    · rw [if_pos ha]; exact ih seen h
    · rw [if_neg ha]
      have h2 : (seen ++ [a]).Nodup := by
        rw [List.nodup_append]
        exact ⟨h, List.nodup_singleton a,
          fun x hx hxa => ha ((List.mem_singleton.mp hxa) ▸ hx)⟩
      have := ih (seen ++ [a]) h2
      simpa [List.append_assoc] using this

theorem getGroup_eq_nil
    (groups : List (Option Nat × List (Nat × DataGameObject)))
    (k : Option Nat) (h : k ∉ groups.map (fun g => g.1)) :
    getGroup groups k = [] := by
  unfold getGroup
  rw [List.find?_eq_none.mpr]
  · rfl
  · intro g hg hc
    exact h (List.mem_map.mpr ⟨g, hg, of_decide_eq_true hc⟩)

theorem getGroup_update
    (groups : List (Option Nat × List (Nat × DataGameObject)))
    (k key : Option Nat) (x : Nat × DataGameObject)
    (hkey : key ∈ groups.map (fun g => g.1)) :
    getGroup (groups.map (fun g =>
        if g.1 = key then (g.1, g.2 ++ [x]) else g)) k =
      if k = key then getGroup groups k ++ [x] else getGroup groups k := by
  unfold getGroup
  rw [List.find?_map]
  have hp : ((fun g : Option Nat × List (Nat × DataGameObject) =>
      decide (g.1 = k)) ∘ (fun g => if g.1 = key then (g.1, g.2 ++ [x]) else g))
      = (fun g => decide (g.1 = k)) := by
    funext g
    simp only [Function.comp_apply]
    split <;> rfl
  rw [hp]
  cases hf : groups.find? (fun g => decide (g.1 = k)) with
  | none =>
    by_cases hk : k = key
    · subst hk
      obtain ⟨g, hg, hgk⟩ := List.mem_map.mp hkey
      have := List.find?_eq_none.mp hf g hg
      exact absurd (decide_eq_true hgk) this
    · simp [hk]
  | some g =>
    have hgk0 := List.find?_some hf
    simp only [decide_eq_true_eq] at hgk0
    have hgk : g.1 = k := hgk0
    simp only [Option.map_some', Option.getD_some]
    by_cases hk : k = key
    · rw [if_pos (hgk.trans hk), if_pos hk]
    · rw [if_neg (fun hcon => hk (hgk ▸ hcon)), if_neg hk]

theorem getGroup_append
    (groups : List (Option Nat × List (Nat × DataGameObject)))
    (key k : Option Nat) (x : Nat × DataGameObject)
    (hkey : key ∉ groups.map (fun g => g.1)) :
    getGroup (groups ++ [(key, [x])]) k =
      if k = key then [x] else getGroup groups k := by
  unfold getGroup
  rw [List.find?_append]
  cases hf : groups.find? (fun g => decide (g.1 = k)) with
  | none =>
    simp only [Option.none_or]
    by_cases hk : k = key
    · subst hk
      simp [List.find?]
    · have : (decide ((key, [x]).1 = k)) = false :=
        decide_eq_false (fun hcon => hk hcon.symm)
      simp [List.find?, this, hk]
  | some g =>
    have hgk0 := List.find?_some hf
    simp only [decide_eq_true_eq] at hgk0
    have hgk : g.1 = k := hgk0
    have hk : k ≠ key := by
      intro hcon
      exact hkey (List.mem_map.mpr ⟨g, List.mem_of_find?_eq_some hf,
        hgk.trans hcon⟩)
    simp [hk]

theorem group_loop_content (rest : List (Nat × DataGameObject)) :
    ∀ groups k, getGroup (group_loop rest groups) k =
      getGroup groups k ++ rest.filter (fun p => p.2.shader = k) := by
  induction rest with
  | nil => intro groups k; simp [group_loop]
  | cons p rest ih =>
    intro groups k
    obtain ⟨i, o⟩ := p
    unfold group_loop
    by_cases h : o.shader ∈ groups.map (fun g => g.1)
    · rw [if_pos h, ih, getGroup_update groups k o.shader (i, o) h]
      by_cases hk : k = o.shader
      · have : (decide ((i, o).2.shader = k)) = true :=
          decide_eq_true (hk ▸ rfl)
        rw [if_pos hk, List.filter_cons, if_pos this]
        simp
      · have : (decide ((i, o).2.shader = k)) = false :=
          decide_eq_false (fun hcon => hk (by simp at hcon; rw [hcon]))
        rw [if_neg hk, List.filter_cons, if_neg (by simp [this])]
    · rw [if_neg h, ih, getGroup_append groups o.shader k (i, o) h]
      by_cases hk : k = o.shader
      · have hnil : getGroup groups k = [] := getGroup_eq_nil groups k (hk ▸ h)
        have : (decide ((i, o).2.shader = k)) = true :=
          decide_eq_true (hk ▸ rfl)
        rw [if_pos hk, List.filter_cons, if_pos this, hnil]
        simp
      · have : (decide ((i, o).2.shader = k)) = false :=
          decide_eq_false (fun hcon => hk (by simp at hcon; rw [hcon]))
        rw [if_neg hk, List.filter_cons, if_neg (by simp [this])]

theorem find?_of_mem_nodup_keys
    (k : Option Nat) (ms : List (Nat × DataGameObject)) :
    ∀ groups : List (Option Nat × List (Nat × DataGameObject)),
    (k, ms) ∈ groups → (groups.map (fun g => g.1)).Nodup →
    groups.find? (fun g => decide (g.1 = k)) = some (k, ms) := by
  intro groups
  induction groups with
  | nil => intro hmem _; exact absurd hmem (List.not_mem_nil _)
  | cons g rest ih =>
    intro hmem hnd
    simp only [List.map_cons, List.nodup_cons] at hnd
    rcases List.mem_cons.mp hmem with h1 | h1
    · subst h1
      simp [List.find?]
    · have hkrest : k ∈ rest.map (fun g => g.1) :=
        List.mem_map.mpr ⟨(k, ms), h1, rfl⟩
      have hgk : g.1 ≠ k := fun hcon => hnd.1 (hcon ▸ hkrest)
      rw [List.find?_cons_of_neg _ (by simp [hgk])]
      exact ih h1 hnd.2

/-- C5: shader grouping partitions the objects by shader key in
first-encounter order: the group keys are the distinct shader values in
first-encounter order (and duplicate-free), each group holds exactly the
(index, object) pairs whose shader equals its key, in declaration order,
and the memoized wrapper is idempotent: a second call with the cache
produced by the first returns the identical result. -/
theorem C5_grouping_partition (objs : List DataGameObject)
    (k : Option Nat) (ms : List (Nat × DataGameObject))
    (hmem : (k, ms) ∈ group_objects_by_shaders objs) :
    (group_objects_by_shaders objs).map (fun g => g.1) =
      firstDedup (objs.map (fun o => o.shader)) ∧
    ((group_objects_by_shaders objs).map (fun g => g.1)).Nodup ∧
    ms = objs.enum.filter (fun p => p.2.shader = k) ∧
    group_objects_cached objs ((group_objects_cached objs ⟨false, []⟩).2) =
      group_objects_cached objs ⟨false, []⟩ ∧
    (group_objects_cached objs ⟨false, []⟩).1 =
      group_objects_by_shaders objs := by
  have hkeys : (group_objects_by_shaders objs).map (fun g => g.1) =
      firstDedup (objs.map (fun o => o.shader)) := by
    unfold group_objects_by_shaders firstDedup
    rw [group_loop_keys]
    simp only [List.map_nil, List.nil_append]
    congr 1
    have h1 : (fun p : Nat × DataGameObject => p.2.shader) =
        (fun o : DataGameObject => o.shader) ∘ Prod.snd := rfl
    rw [h1, ← List.map_map, List.enum_map_snd]
  have hnd : ((group_objects_by_shaders objs).map (fun g => g.1)).Nodup := by
    rw [hkeys]
    unfold firstDedup
    have := firstDedupAux_nodup (objs.map (fun o => o.shader)) []
      List.nodup_nil
    simpa using this
  refine ⟨hkeys, hnd, ?_, by rfl, by rfl⟩
  have hfind := find?_of_mem_nodup_keys k ms
    (group_objects_by_shaders objs) hmem hnd
  have hget : getGroup (group_objects_by_shaders objs) k = ms := by
    unfold getGroup
    rw [hfind]
    rfl
  rw [← hget]
  unfold group_objects_by_shaders
  rw [group_loop_content]
  simp [getGroup]

/-- Witness for C5: three objects with shaders `[1, 0, 1]`; the shader-1
group holds the first and third objects. -/
theorem C5_grouping_partition_witness :
    (group_objects_by_shaders [objShader1, objShader0, objShader1]).map
        (fun g => g.1) =
      firstDedup ([objShader1, objShader0, objShader1].map
        (fun o => o.shader)) ∧
    ((group_objects_by_shaders [objShader1, objShader0, objShader1]).map
        (fun g => g.1)).Nodup ∧
    [(0, objShader1), (2, objShader1)] =
      [objShader1, objShader0, objShader1].enum.filter
        (fun p => p.2.shader = some 1) ∧
    group_objects_cached [objShader1, objShader0, objShader1]
        ((group_objects_cached [objShader1, objShader0, objShader1]
          ⟨false, []⟩).2) =
      group_objects_cached [objShader1, objShader0, objShader1]
        ⟨false, []⟩ ∧
    (group_objects_cached [objShader1, objShader0, objShader1]
        ⟨false, []⟩).1 =
      group_objects_by_shaders [objShader1, objShader0, objShader1] :=
  C5_grouping_partition [objShader1, objShader0, objShader1] (some 1)
    [(0, objShader1), (2, objShader1)] (by decide)

theorem dedupFirstBy_cons (m : Mesh) (l : List Mesh) (seen : List Nat) :
    dedupFirstBy (m :: l) seen =
      if m.ident ∈ seen then dedupFirstBy l seen
      else m :: dedupFirstBy l (seen ++ [m.ident]) := rfl

theorem dedupFirstBy_nodup (l : List Mesh) :
    ∀ seen, seen.Nodup →
    (seen ++ (dedupFirstBy l seen).map (fun m => m.ident)).Nodup := by
  induction l with
  | nil => intro seen h; simpa [dedupFirstBy]
  | cons m l ih =>
    intro seen h
    rw [dedupFirstBy_cons]
    by_cases hm : m.ident ∈ seen
    · rw [if_pos hm]; exact ih seen h
    · rw [if_neg hm]
      have h2 : (seen ++ [m.ident]).Nodup := by
        rw [List.nodup_append]
        exact ⟨h, List.nodup_singleton _,
          fun x hx hxa => hm ((List.mem_singleton.mp hxa) ▸ hx)⟩
      have := ih (seen ++ [m.ident]) h2
      simpa [List.append_assoc] using this

theorem setup_objects_loop_invariant (meshes : List (Option Mesh))
    (rest : List SceneObject) :
    ∀ off0 cache dms0 objs0 off dms dobjs,
    setup_objects_loop meshes rest off0 cache dms0 objs0 =
      Except.ok (off, dms, dobjs) →
    cache = dms0.map (fun d => d.mesh.ident) →
    off0 = (dms0.map (fun d => d.mesh.size)).sum →
    dms.map (fun d => d.mesh) =
      dms0.map (fun d => d.mesh) ++
        dedupFirstBy (referencedMeshes meshes rest) cache ∧
    off = (dms.map (fun d => d.mesh.size)).sum := by
  induction rest with
  | nil =>
    intro off0 cache dms0 objs0 off dms dobjs h hc hoff
    unfold setup_objects_loop at h
    have h2 := Except.ok.inj h
    obtain ⟨h3, h4, _⟩ : off0 = off ∧ dms0 = dms ∧ objs0 = dobjs := by
      refine ⟨congrArg Prod.fst h2, ?_, ?_⟩
      · exact congrArg (fun p => p.2.1) h2
      · exact congrArg (fun p => p.2.2) h2
    subst h3; subst h4
    simp only [referencedMeshes, List.filterMap_nil]
    exact ⟨by simp [dedupFirstBy], hoff⟩
  | cons o rest ih =>
    intro off0 cache dms0 objs0 off dms dobjs h hc hoff
    unfold setup_objects_loop at h
    split at h
    · exact absurd h (by simp)
    · rename_i xo mi hom
      split at h
      · exact absurd h (by simp)
      · rename_i hmm
        have hmm2 : meshes[mi]? = some none := by
          rw [← List.get?_eq_getElem?]; exact hmm
        have hrefc : referencedMeshes meshes (o :: rest) =
            referencedMeshes meshes rest := by
          unfold referencedMeshes
          rw [List.filterMap_cons]
          simp [hom, hmm2]
        rw [hrefc]
        exact ih off0 cache dms0 (objs0 ++ [DataGameObject.ofScene o])
          off dms dobjs h hc hoff
      · rename_i m hmm
        have hmm2 : meshes[mi]? = some (some m) := by
          rw [← List.get?_eq_getElem?]; exact hmm
        have hrefc : referencedMeshes meshes (o :: rest) =
            m :: referencedMeshes meshes rest := by
          unfold referencedMeshes
          rw [List.filterMap_cons]
          simp [hom, hmm2]
        rw [hrefc, dedupFirstBy_cons]
        by_cases hin : m.ident ∈ cache
        · rw [if_pos hin]
          rw [if_pos (hc ▸ hin)] at h
          exact ih off0 cache dms0 (objs0 ++ [DataGameObject.ofScene o])
            off dms dobjs h hc hoff
        · rw [if_neg hin]
          rw [if_neg (hc ▸ hin)] at h
          have := ih (off0 + m.size) (cache ++ [m.ident])
            (dms0 ++ [(⟨m, off0⟩ : DataMesh)])
            (objs0 ++ [DataGameObject.ofScene o])
            off dms dobjs h
            (by rw [hc]; simp)
            (by rw [hoff]; simp)
          obtain ⟨hmap, hoff2⟩ := this
          refine ⟨?_, hoff2⟩
          rw [hmap, hc]
          simp [List.append_assoc]

theorem setup_objects_loop_offsets (meshes : List (Option Mesh))
    (R : Nat → Nat → Prop)
    (hmono : ∀ x y z : Nat, R x y → y ≤ z → R x z)
    (hself : ∀ m : Mesh, some m ∈ meshes → ∀ x : Nat, R x (x + m.size))
    (rest : List SceneObject) :
    ∀ off0 cache dms0 objs0 off dms dobjs,
    setup_objects_loop meshes rest off0 cache dms0 objs0 =
      Except.ok (off, dms, dobjs) →
    List.Chain' R (dms0.map (fun d => d.base_offset)) →
    (∀ d ∈ dms0, R d.base_offset off0) →
    List.Chain' R (dms.map (fun d => d.base_offset)) := by
  induction rest with
  | nil =>
    intro off0 cache dms0 objs0 off dms dobjs h hch hb
    unfold setup_objects_loop at h
    have h2 := Except.ok.inj h
    have h4 : dms0 = dms := congrArg (fun p => p.2.1) h2
    subst h4
    exact hch
  | cons o rest ih =>
    intro off0 cache dms0 objs0 off dms dobjs h hch hb
    unfold setup_objects_loop at h
    split at h
    · exact absurd h (by simp)
    · rename_i xo mi hom
      split at h
      · exact absurd h (by simp)
      · rename_i hmm
        exact ih off0 cache dms0 (objs0 ++ [DataGameObject.ofScene o])
          off dms dobjs h hch hb
      · rename_i m hmm
        by_cases hin : m.ident ∈ cache
        · rw [if_pos hin] at h
          exact ih off0 cache dms0 (objs0 ++ [DataGameObject.ofScene o])
            off dms dobjs h hch hb
        · rw [if_neg hin] at h
          have hch2 : List.Chain' R
              ((dms0 ++ [(⟨m, off0⟩ : DataMesh)]).map
                (fun d => d.base_offset)) := by
            rw [List.map_append, List.chain'_append]
            refine ⟨hch, List.chain'_singleton _, ?_⟩
            intro x hx y hy
            simp only [List.map_cons, List.map_nil, List.head?_cons,
              Option.mem_def, Option.some.injEq] at hy
            obtain ⟨hh, hx2⟩ := List.mem_getLast?_eq_getLast hx
            subst hy
            have hxm : x ∈ dms0.map (fun d => d.base_offset) :=
              hx2 ▸ List.getLast_mem hh
            obtain ⟨d, hd, hdx⟩ := List.mem_map.mp hxm
            exact hdx ▸ hb d hd
          have hb2 : ∀ d ∈ dms0 ++ [(⟨m, off0⟩ : DataMesh)],
              R d.base_offset (off0 + m.size) := by
            intro d hd
            rcases List.mem_append.mp hd with h1 | h1
            · exact hmono _ _ _ (hb d h1) (Nat.le_add_right off0 m.size)
            · rw [List.mem_singleton.mp h1]
              exact hself m (List.get?_mem hmm) off0
          exact ih (off0 + m.size) (cache ++ [m.ident])
            (dms0 ++ [(⟨m, off0⟩ : DataMesh)])
            (objs0 ++ [DataGameObject.ofScene o])
            off dms dobjs h hch2 hb2

/-- C4 counterexample: a scene whose first packed mesh has size 0 — the
staging offset does not advance, so the second distinct mesh is assigned
the SAME base offset 0 and the offsets `[0, 0]` are not strictly
increasing as the claim states. -/
theorem C4_zero_size_mesh_offsets_tie :
    setup_objects [some ⟨1, 0⟩, some ⟨2, 5⟩]
        [⟨some 0, some 0⟩, ⟨some 0, some 1⟩] =
      Except.ok (5, [⟨⟨1, 0⟩, 0⟩, ⟨⟨2, 5⟩, 0⟩],
        [DataGameObject.ofScene ⟨some 0, some 0⟩,
         DataGameObject.ofScene ⟨some 0, some 1⟩]) ∧
    ([⟨⟨1, 0⟩, 0⟩, ⟨⟨2, 5⟩, 0⟩] : List DataMesh).map
      (fun d => d.base_offset) = [0, 0] ∧
    ¬ List.Chain' (· < ·) [0, 0] :=
  ⟨rfl, rfl, by simp [List.chain'_cons]⟩

/-- C4 amended: mesh packing deduplicates by identity — the packed mesh
list is the first-encounter identity-deduplication of the meshes the
objects reference, so each distinct mesh appears exactly once no matter
how many objects reference it (the packed identity list is
duplicate-free); the assigned base offsets are non-decreasing in
first-reference order, and strictly increasing when every mesh of the
scene has positive size (a zero-size mesh ties its successor's offset);
and the staging/device buffer size is the sum of the distinct meshes'
sizes. -/
theorem C4_mesh_packing (meshes : List (Option Mesh))
    (sceneObjs : List SceneObject) (off : Nat) (dms : List DataMesh)
    (dobjs : List DataGameObject)
    (h : setup_objects meshes sceneObjs = Except.ok (off, dms, dobjs)) :
    dms.map (fun d => d.mesh) =
      dedupFirstBy (referencedMeshes meshes sceneObjs) [] ∧
    (dms.map (fun d => d.mesh.ident)).Nodup ∧
    List.Chain' (· ≤ ·) (dms.map (fun d => d.base_offset)) ∧
    off = (dms.map (fun d => d.mesh.size)).sum ∧
    ((∀ m : Mesh, some m ∈ meshes → 0 < m.size) →
      List.Chain' (· < ·) (dms.map (fun d => d.base_offset))) := by
  unfold setup_objects at h
  obtain ⟨hmap, hoff⟩ := setup_objects_loop_invariant meshes
    sceneObjs 0 [] [] [] off dms dobjs h rfl rfl
  simp only [List.map_nil, List.nil_append] at hmap
  have hle : List.Chain' (· ≤ ·) (dms.map (fun d => d.base_offset)) :=
    setup_objects_loop_offsets meshes (· ≤ ·)
      (fun x y z h1 h2 => Nat.le_trans h1 h2)
      (fun m _ x => Nat.le_add_right x m.size)
      sceneObjs 0 [] [] [] off dms dobjs h (by simp) (by simp)
  refine ⟨hmap, ?_, hle, hoff, ?_⟩
  · have hnd := dedupFirstBy_nodup (referencedMeshes meshes sceneObjs) []
      List.nodup_nil
    simp only [List.nil_append] at hnd
    have : dms.map (fun d => d.mesh.ident) =
        (dms.map (fun d => d.mesh)).map (fun m => m.ident) := by
      rw [List.map_map]; rfl
    rw [this, hmap]
    exact hnd
  · intro hpos
    exact setup_objects_loop_offsets meshes (· < ·)
      (fun x y z h1 h2 => Nat.lt_of_lt_of_le h1 h2)
      (fun m hm x => by have := hpos m hm; omega)
      sceneObjs 0 [] [] [] off dms dobjs h (by simp) (by simp)

/-- Witness for C4: two objects sharing the single mesh (identity 7,
40 bytes) — one packed copy at offset 0, buffer size 40. -/
theorem C4_mesh_packing_witness :
    ([⟨⟨7, 40⟩, 0⟩] : List DataMesh).map (fun d => d.mesh) =
      dedupFirstBy (referencedMeshes [some ⟨7, 40⟩]
        [⟨some 0, some 0⟩, ⟨some 0, some 0⟩]) [] ∧
    (([⟨⟨7, 40⟩, 0⟩] : List DataMesh).map (fun d => d.mesh.ident)).Nodup ∧
    List.Chain' (· ≤ ·)
      (([⟨⟨7, 40⟩, 0⟩] : List DataMesh).map (fun d => d.base_offset)) ∧
    40 = (([⟨⟨7, 40⟩, 0⟩] : List DataMesh).map (fun d => d.mesh.size)).sum ∧
    ((∀ m : Mesh, some m ∈ [some (⟨7, 40⟩ : Mesh)] → 0 < m.size) →
      List.Chain' (· < ·)
        (([⟨⟨7, 40⟩, 0⟩] : List DataMesh).map (fun d => d.base_offset))) :=
  C4_mesh_packing [some ⟨7, 40⟩] [⟨some 0, some 0⟩, ⟨some 0, some 0⟩]
    40 [⟨⟨7, 40⟩, 0⟩]
    [DataGameObject.ofScene ⟨some 0, some 0⟩,
     DataGameObject.ofScene ⟨some 0, some 0⟩] rfl

theorem destutter_ne_head (l : List Nat) :
    ∀ a, ∃ t, List.destutter' (· ≠ ·) a l = a :: t := by
  induction l with
  | nil => intro a; exact ⟨[], List.destutter'_nil (R := (· ≠ ·))⟩
  | cons b l ih =>
    intro a
    rw [List.destutter'_cons l (· ≠ ·)]
    by_cases h : a ≠ b
    · rw [if_pos h]; exact ⟨_, rfl⟩
    · rw [if_neg h]; exact ih a

theorem specPipelineBinds_nil (prev : Option Nat) :
    specPipelineBinds prev [] = [] := by
  cases prev with
  | none => simp [specPipelineBinds, List.destutter_nil]
  | some a => simp [specPipelineBinds, List.destutter'_nil]

theorem specPipelineBinds_cons (prev : Option Nat) (p : Nat) (ys : List Nat) :
    specPipelineBinds prev (p :: ys) =
      (if prev = some p then [] else [p]) ++ specPipelineBinds (some p) ys := by
  cases prev with
  | none =>
    simp only [specPipelineBinds]
    rw [List.destutter_cons' ys (· ≠ ·)]
    obtain ⟨t, ht⟩ := destutter_ne_head ys p
    rw [ht]
    simp
  | some a =>
    simp only [specPipelineBinds]
    rw [List.destutter'_cons ys (· ≠ ·)]
    by_cases h : a = p
    · subst h
      rw [if_neg (by simp), if_pos rfl]
      simp
    · rw [if_pos h, if_neg (fun hc => h (Option.some.inj hc))]
      obtain ⟨t, ht⟩ := destutter_ne_head ys p
      rw [ht]
      simp

theorem record_loop_spec (shaders : List DataShader)
    (pipelines : List PipelineInfo) (meshes : List DataMesh)
    (objs : List DataGameObject) :
    ∀ (curIdx : Option Nat) (curSh : Option DataShader) (prev : Option Nat),
    (∀ o ∈ objs, ∀ s, o.shader = some s → s < shaders.length) →
    (∀ o ∈ objs, ∀ p, o.pipeline = some p → p < pipelines.length) →
    (∀ o ∈ objs, o.descriptor_sets.isSome = true → o.shader.isSome = true) →
    (∀ o ∈ objs, ∀ mi, o.mesh = some mi → mi < meshes.length ∧
      ∃ s, o.shader = some s ∧ s < shaders.length) →
    (curIdx.isSome = true → curSh.isSome = true) →
    ∃ cmds, record_loop shaders pipelines meshes objs curIdx curSh prev =
        Except.ok cmds ∧
      cmds.filterMap pipelineBindOf =
        specPipelineBinds prev (objs.filterMap (fun o => o.pipeline)) ∧
      cmds.filterMap descriptorBindOf =
        objs.filterMap (fun o => o.descriptor_sets) := by
  induction objs with
  | nil =>
    intro curIdx curSh prev h1 h2 h3 h4 hinv
    exact ⟨[], rfl, by simp [specPipelineBinds_nil], by simp⟩
  | cons obj rest ih =>
    intro curIdx curSh prev h1 h2 h3 h4 hinv
    have hstep1 : ∃ ni ns,
        record_step_shader shaders obj curIdx curSh = Except.ok (ni, ns) ∧
        (ni.isSome = true → ns.isSome = true) ∧
        (obj.shader.isSome = true → ni.isSome = true) := by
      cases hsh : obj.shader with
      | none =>
        exact ⟨curIdx, curSh, by simp [record_step_shader, hsh], hinv,
          by simp⟩
      | some s =>
        by_cases heq : curIdx = some s
        · exact ⟨curIdx, curSh, by simp [record_step_shader, hsh, heq],
            hinv, by simp [heq]⟩
        · have hlt := h1 obj (List.mem_cons_self obj rest) s hsh
          have hget : shaders[s]? = some (shaders.get ⟨s, hlt⟩) :=
            List.getElem?_eq_getElem hlt
          exact ⟨some s, some (shaders.get ⟨s, hlt⟩),
            by simp [record_step_shader, hsh, heq, hget], by simp, by simp⟩
    obtain ⟨ni, ns, hs1, hinv2, hshni⟩ := hstep1
    have hstep2 : ∃ np c1,
        record_step_pipeline pipelines obj prev = Except.ok (np, c1) ∧
        (∀ ys, c1.filterMap pipelineBindOf ++ specPipelineBinds np ys =
          specPipelineBinds prev
            (match obj.pipeline with | none => ys | some p => p :: ys)) ∧
        c1.filterMap descriptorBindOf = [] := by
      cases hp : obj.pipeline with
      | none =>
        exact ⟨prev, [], by simp [record_step_pipeline, hp],
          fun ys => by simp, rfl⟩
      | some p =>
        by_cases heq : prev = some p
        · refine ⟨prev, [], by simp [record_step_pipeline, hp, heq],
            fun ys => ?_, rfl⟩
          simp only [List.filterMap_nil, List.nil_append]
          rw [specPipelineBinds_cons, if_pos heq, heq]
          simp
        · have hlt := h2 obj (List.mem_cons_self obj rest) p hp
          have hget : pipelines[p]? = some (pipelines.get ⟨p, hlt⟩) :=
            List.getElem?_eq_getElem hlt
          refine ⟨some p,
            [RenderCmd.bindPipeline p (pipelines.get ⟨p, hlt⟩)],
            by simp [record_step_pipeline, hp, heq, hget],
            fun ys => ?_, rfl⟩
          rw [specPipelineBinds_cons, if_neg heq]
          simp [pipelineBindOf]
    obtain ⟨np, c1, hs2, hpipeEq, hc1desc⟩ := hstep2
    have hstep3 : ∃ c2,
        record_step_descriptors obj ns = Except.ok c2 ∧
        c2.filterMap descriptorBindOf =
          (match obj.descriptor_sets with
            | none => [] | some ds => [ds]) ∧
        c2.filterMap pipelineBindOf = [] := by
      cases hd : obj.descriptor_sets with
      | none => exact ⟨[], by simp [record_step_descriptors, hd], rfl, rfl⟩
      | some ds =>
        have hsh : obj.shader.isSome = true :=
          h3 obj (List.mem_cons_self obj rest) (by rw [hd]; rfl)
        have hns : ns.isSome = true := hinv2 (hshni hsh)
        obtain ⟨sh, hns2⟩ := Option.isSome_iff_exists.mp hns
        exact ⟨[RenderCmd.bindDescriptorSets (Handle.pipelineLayout sh.id) ds],
          by simp [record_step_descriptors, hd, hns2],
          by simp [descriptorBindOf], rfl⟩
    obtain ⟨c2, hs3, hc2desc, hc2pipe⟩ := hstep3
    have hstep4 : ∃ c3,
        record_step_mesh shaders meshes obj = Except.ok c3 ∧
        c3.filterMap pipelineBindOf = [] ∧
        c3.filterMap descriptorBindOf = [] := by
      cases hm : obj.mesh with
      | none => exact ⟨[], by simp [record_step_mesh, hm], rfl, rfl⟩
      | some mi =>
        obtain ⟨hmlt, s, hs, hslt⟩ :=
          h4 obj (List.mem_cons_self obj rest) mi hm
        have hget1 : meshes[mi]? = some (meshes.get ⟨mi, hmlt⟩) :=
          List.getElem?_eq_getElem hmlt
        have hget2 : shaders[s]? = some (shaders.get ⟨s, hslt⟩) :=
          List.getElem?_eq_getElem hslt
        exact ⟨[RenderCmd.bindIndexBuffer mi, RenderCmd.bindVertexBuffers mi,
          RenderCmd.drawIndexed mi],
          by simp [record_step_mesh, hm, hget1, hs, hget2], rfl, rfl⟩
    obtain ⟨c3, hs4, hc3pipe, hc3desc⟩ := hstep4
    obtain ⟨cs, hloop, hcspipe, hcsdesc⟩ := ih ni ns np
      (fun o ho => h1 o (List.mem_cons_of_mem obj ho))
      (fun o ho => h2 o (List.mem_cons_of_mem obj ho))
      (fun o ho => h3 o (List.mem_cons_of_mem obj ho))
      (fun o ho => h4 o (List.mem_cons_of_mem obj ho))
      hinv2
    refine ⟨c1 ++ c2 ++ c3 ++ cs, ?_, ?_, ?_⟩
    · show record_loop shaders pipelines meshes (obj :: rest)
          curIdx curSh prev = Except.ok (c1 ++ c2 ++ c3 ++ cs)
      unfold record_loop
      rw [hs1]
      simp only [Bind.bind, Except.bind]
      rw [hs2]
      simp only
      rw [hs3]
      simp only
      rw [hs4]
      simp only
      rw [hloop]
      simp [pure, Except.pure]
    · simp only [List.filterMap_append, hc2pipe, hc3pipe,
        List.append_nil, hcspipe]
      have hpe := hpipeEq (rest.filterMap (fun o => o.pipeline))
      cases hp : obj.pipeline with
      | none =>
        simp only [hp] at hpe
        simp only [List.filterMap_cons, hp]
        exact hpe
      | some p =>
        simp only [hp] at hpe
        simp only [List.filterMap_cons, hp]
        exact hpe
    · simp only [List.filterMap_append, hc1desc, hc3desc,
        List.nil_append, List.append_nil, hcsdesc]
      cases hd : obj.descriptor_sets with
      | none =>
        simp only [hd] at hc2desc
        simp only [List.filterMap_cons, hd, hc2desc]
        simp
      | some ds =>
        simp only [hd] at hc2desc
        simp only [List.filterMap_cons, hd, hc2desc]
        simp

/-- C6: for every framebuffer index, `record()` walks the objects in
compiled declaration order; the sequence of pipeline binds it emits is
exactly the consecutive-deduplication (`destutter`) of the objects'
pipeline indices — a bind is emitted precisely when the index differs
from the previously bound one, so contiguous runs bind once while
interleaved objects of the same pipeline re-bind — and it emits one
descriptor-set bind per object whose descriptor-set list is present, in
order. -/
theorem C6_record_bind_emission (shaders : List DataShader)
    (pipelines : List PipelineInfo) (meshes : List DataMesh)
    (objs : List DataGameObject) (fb : Nat) (cmds : List RenderCmd)
    (h1 : ∀ o ∈ objs, ∀ s, o.shader = some s → s < shaders.length)
    (h2 : ∀ o ∈ objs, ∀ p, o.pipeline = some p → p < pipelines.length)
    (h3 : ∀ o ∈ objs, o.descriptor_sets.isSome = true →
      o.shader.isSome = true)
    (h4 : ∀ o ∈ objs, ∀ mi, o.mesh = some mi → mi < meshes.length ∧
      ∃ s, o.shader = some s ∧ s < shaders.length)
    (hrec : record shaders pipelines meshes objs fb = Except.ok cmds) :
    cmds.filterMap pipelineBindOf =
      (objs.filterMap (fun o => o.pipeline)).destutter (· ≠ ·) ∧
    cmds.filterMap descriptorBindOf =
      objs.filterMap (fun o => o.descriptor_sets) := by
  obtain ⟨cs, hloop, hpipe, hdesc⟩ :=
    record_loop_spec shaders pipelines meshes objs none none none
      h1 h2 h3 h4 (by simp)
  unfold record at hrec
  rw [hloop] at hrec
  simp only [Bind.bind, Except.bind, pure, Except.pure] at hrec
  have hc : RenderCmd.beginRenderPass fb ::
      (cs ++ [RenderCmd.endRenderPass]) = cmds := Except.ok.inj hrec
  subst hc
  constructor
  · rw [List.filterMap_cons]
    simp only [pipelineBindOf, List.filterMap_append]
    rw [hpipe]
    simp [specPipelineBinds, pipelineBindOf]
  · rw [List.filterMap_cons]
    simp only [descriptorBindOf, List.filterMap_append]
    rw [hdesc]
    simp [descriptorBindOf]

/-- Witness for C6: the four-object scene with interleaved pipelines
`[0, 0, 1, 0]` — `record` emits binds `[0, 1, 0]` (the contiguous run
coalesced, the interleaved pipeline re-bound) and one descriptor bind. -/
theorem C6_record_bind_emission_witness :
    recordCmds.filterMap pipelineBindOf =
      (recordObjs.filterMap (fun o => o.pipeline)).destutter (· ≠ ·) ∧
    recordCmds.filterMap descriptorBindOf =
      recordObjs.filterMap (fun o => o.descriptor_sets) :=
  C6_record_bind_emission [shaderPlain0, shaderPlain1] recordPipelines
    [⟨⟨7, 40⟩, 0⟩] recordObjs 0 recordCmds
    (by
      intro o ho s hs
      simp only [recordObjs, List.mem_cons, List.not_mem_nil, or_false] at ho
      rcases ho with rfl | rfl | rfl | rfl <;>
        (simp only [Option.some.injEq] at hs
         simp only [List.length_cons, List.length_nil]
         omega))
    (by
      intro o ho p hp
      simp only [recordObjs, List.mem_cons, List.not_mem_nil, or_false] at ho
      rcases ho with rfl | rfl | rfl | rfl <;>
        (simp only [Option.some.injEq] at hp
         simp only [recordPipelines, List.length_cons, List.length_nil]
         omega))
    (by
      intro o ho _
      simp only [recordObjs, List.mem_cons, List.not_mem_nil, or_false] at ho
      rcases ho with rfl | rfl | rfl | rfl <;> rfl)
    (by
      intro o ho mi hm
      simp only [recordObjs, List.mem_cons, List.not_mem_nil, or_false] at ho
      rcases ho with rfl | rfl | rfl | rfl
      · simp only [Option.some.injEq] at hm
        subst hm
        exact ⟨by simp, 0, rfl, by simp⟩
      · exact absurd hm (by simp)
      · exact absurd hm (by simp)
      · exact absurd hm (by simp))
    rfl

/-- C10: a shader whose mapping declares zero uniforms compiles
successfully with `descriptor_set_layouts` left `None` and a pipeline
layout built over an empty set list, but `free()` then raises
(`TypeError`, from iterating `None`) before destroying any handle. -/
theorem C10_zero_uniform_free_raises (id : Nat) :
    DataShader.compile id [] = Except.ok ⟨id, [0, 1], none, []⟩ ∧
    (⟨id, [0, 1], none, []⟩ : DataShader).free =
      Except.error Err.typeError :=
  ⟨rfl, rfl⟩

end PanicPanda
